import Mathlib

/-!
# OctopusRecommendationEngine (octolint): checks and their correlation logic

A shallow embedding of the checks under `internal/checks` and of the parts of the Go
standard library and of the Octopus client they call.

Conventions of the embedding.

* Go strings are Lean strings; byte-wise equality and substring search on well-formed
  UTF-8 agree with equality and infix search on the list of characters.
* A Go return pair `(checks.OctopusCheckResult, error)` is a pair of options
  (`none` is `nil`); a run of `Execute` is that pair, or a runtime panic, together with the
  list of data-access calls made, in order.
* The client is a read-only snapshot: every data-access call is a function of its
  arguments. A `nil` client is `none`.
* A Go map is an association list in insertion order; the iteration order of a Go map is
  unspecified, the embedding fixes insertion order.
* Pointers into the slice a fetch returns are distinct; a map keyed by such a pointer is
  keyed here by the position of the element in the slice.
-/

namespace OctoLint

/-! ## Go standard library -/

/-- Byte-wise substring test, `strings.Index(s, substr) != -1`. -/
def stringsContains (s substr : String) : Bool :=
  s.data.tails.any (fun t => substr.data.isPrefixOf t)

/-- Go `strings.ToLower`, on the ASCII range. No rune outside ASCII lowercases to an ASCII
letter other than `i` and `k`, so the comparisons the checks make are unaffected. -/
def stringsToLower (s : String) : String :=
  String.mk (s.data.map Char.toLower)

/-- Go `unicode.IsSpace`. -/
def unicodeIsSpace (c : Char) : Bool :=
  let n := c.toNat
  (9 ≤ n && n ≤ 13) || n == 32 || n == 0x85 || n == 0xA0 || n == 0x1680 ||
    (0x2000 ≤ n && n ≤ 0x200A) || n == 0x2028 || n == 0x2029 || n == 0x202F ||
    n == 0x205F || n == 0x3000

/-- Go `strings.TrimSpace`: drop leading and trailing white space. -/
def stringsTrimSpace (s : String) : String :=
  String.mk ((s.data.dropWhile unicodeIsSpace).reverse.dropWhile unicodeIsSpace).reverse

/-- Go `strings.HasPrefix`. -/
def stringsHasPrefix (s pre : String) : Bool :=
  pre.data.isPrefixOf s.data

/-- Go `strings.Join`. -/
def stringsJoin (elems : List String) (sep : String) : String :=
  sep.intercalate elems

/-- Go `slices.Index`: the first index of `v` in `s`, or `-1`. -/
def slicesIndex (s : List String) (v : String) : Int :=
  match s.indexOf? v with
  | some i => (i : Int)
  | none => -1

/-- Go `strconv.Atoi` on a 64-bit platform: an optional sign, then one or more decimal
digits, the value within the range of `int`. `none` is a non-nil error. -/
def strconvAtoi (s : String) : Option Int :=
  match s.data with
  | [] => none
  | c :: cs =>
    let digits := if c = '-' ∨ c = '+' then cs else c :: cs
    if digits.isEmpty then none
    else if digits.all (fun ch => 48 ≤ ch.toNat && ch.toNat ≤ 57) then
      let n : Nat := digits.foldl (fun n ch => n * 10 + (ch.toNat - 48)) 0
      let v : Int := if c = '-' then -(n : Int) else (n : Int)
      if -(2 : Int) ^ 63 ≤ v ∧ v ≤ (2 : Int) ^ 63 - 1 then some v else none
    else none

/-- A Go `error` value: an Octopus `*core.APIError` with its HTTP status code, or any other
error (network failure, `errors.New`, ...). -/
inductive GoError where
  | apiError (StatusCode : Int) (ErrorMessage : String)
  | other (message : String)
  deriving DecidableEq, Repr

/-- The method `Error()` of an error value. -/
def GoError.Error : GoError → String
  | .apiError _ msg => "Octopus API error: " ++ msg ++ " [] "
  | .other msg => msg

/-- Go `errors.New`. -/
def errorsNew (text : String) : GoError := .other text

/-! ## The `checks` package: results and error handlers -/

/-- Modelled from the spec: the severity of a Result (package `checks`, not among the
sources), "severity ∈ {Ok, Warning, Error, Permission}". -/
inductive Severity where
  | Ok | Warning | Error | Permission
  deriving DecidableEq, Repr

/-- Modelled from the spec: the category of a Result (package `checks`, not among the
sources). -/
inductive Category where
  | Organization | Security | Naming | Performance
  deriving DecidableEq, Repr

/-- Modelled from the spec: the Result record, "message, check identifier, reference link,
severity, category" (package `checks`, not among the sources). -/
structure OctopusCheckResult where
  description : String
  code : String
  link : String
  severity : Severity
  category : Category
  deriving DecidableEq, Repr

/-- Modelled from the spec: the constructor of a Result (package `checks`, not among the
sources); it stores its five arguments. -/
def NewOctopusCheckResultImpl (description code link : String) (severity : Severity)
    (category : Category) : OctopusCheckResult :=
  { description := description, code := code, link := link, severity := severity,
    category := category }

/-- A Go return pair `(checks.OctopusCheckResult, error)`. -/
abbrev ResultAndError := Option OctopusCheckResult × Option GoError

/-- The interface `checks.OctopusClientErrorHandler`: any implementation is a pair of
functions. -/
structure OctopusClientErrorHandler where
  HandleError : String → Category → GoError → ResultAndError
  ShouldContinue : GoError → Bool

/-! ## Entities of the Octopus client library -/

/-- A project variable (`variables.Variable`); `Type_` is the Go field `Type`. -/
structure Variable where
  Name : String
  Value : String
  Type_ : String
  deriving DecidableEq, Repr

/-- The variables of a project (`variables.VariableSet`). -/
structure VariableSet where
  Variables : List Variable
  deriving DecidableEq, Repr

/-- A project (`projects.Project`); `Links` is the Go map of named links. -/
structure Project where
  ID : String
  Name : String
  DeploymentProcessID : String
  LifecycleID : String
  Links : List (String × String)
  deriving DecidableEq, Repr

/-- A package reference of an action. -/
structure PackageReference where
  FeedID : String
  PackageID : String
  deriving DecidableEq, Repr

/-- The container of an action (`deployments.DeploymentActionContainer`). -/
structure DeploymentActionContainer where
  Image : String
  deriving DecidableEq, Repr

/-- An action of a step; `Properties` is the Go map from property name to
`core.PropertyValue`, of which the checks read the field `Value`. -/
structure DeploymentAction where
  Name : String
  Container : Option DeploymentActionContainer
  Properties : List (String × String)
  Packages : List PackageReference
  deriving DecidableEq, Repr

/-- A step of a deployment or runbook process. -/
structure DeploymentStep where
  Name : String
  Actions : List DeploymentAction
  deriving DecidableEq, Repr

/-- A deployment process; a `nil` slice of steps is the empty list. -/
structure DeploymentProcess where
  Steps : List DeploymentStep
  deriving DecidableEq, Repr

/-- A runbook process. -/
structure RunbookProcess where
  Steps : List DeploymentStep
  deriving DecidableEq, Repr

/-- A runbook. -/
structure Runbook where
  RunbookProcessID : String
  deriving DecidableEq, Repr

/-- An environment. -/
structure Environment where
  ID : String
  Name : String
  deriving DecidableEq, Repr

/-- A phase of a lifecycle. -/
structure Phase where
  AutomaticDeploymentTargets : List String
  OptionalDeploymentTargets : List String
  deriving DecidableEq, Repr

/-- A lifecycle; a `nil` slice of phases is the empty list. -/
structure Lifecycle where
  ID : String
  Phases : List Phase
  deriving DecidableEq, Repr

/-- A channel. -/
structure Channel where
  ProjectID : String
  LifecycleID : String
  deriving DecidableEq, Repr

/-- A Kubernetes endpoint; `ClusterURL` is the text of the URL, `none` when the pointer is
`nil`. -/
structure KubernetesEndpoint where
  SkipTLSVerification : Bool
  ClusterURL : Option String
  deriving DecidableEq, Repr

/-- The endpoint of a deployment target: a `*machines.KubernetesEndpoint`, whose
communication style the library fixes to `Kubernetes`, or an endpoint of another Go type
with the communication style it reports. -/
inductive Endpoint where
  | kubernetes (e : KubernetesEndpoint)
  | otherKind (communicationStyle : String)
  deriving DecidableEq, Repr

/-- The method `GetCommunicationStyle()` of an endpoint. -/
def Endpoint.GetCommunicationStyle : Endpoint → String
  | .kubernetes _ => "Kubernetes"
  | .otherKind s => s

/-- A deployment target (`machines.DeploymentTarget`). -/
structure DeploymentTarget where
  Name : String
  Endpoint : Endpoint
  deriving DecidableEq, Repr

/-- A project group. -/
structure ProjectGroup where
  ID : String
  Name : String
  deriving DecidableEq, Repr

/-- The query of `Environments.Get`. -/
structure EnvironmentsQuery where
  PartialName : String
  Skip : Int
  Take : Int
  deriving DecidableEq, Repr

/-- The configuration (`config.OctolintConfig`), the options the checks read. -/
structure OctolintConfig where
  Verbose : Bool
  MaxEnvironments : Int
  ContainerImageRegex : String
  ExcludeProjectsExcept : List String
  ExcludeProjects : List String
  MaxInvalidContainerImageProjects : Int
  MaxProjectSpecificEnvironmentProjects : Int
  MaxUnusedVariablesProjects : Int
  deriving DecidableEq, Repr

/-! ## The client and the runs of a check -/

/-- A data-access call made through the client. -/
inductive Access where
  | ProjectsGetAll
  | GetProjectsWithFilter
  | GetProjects
  | VariablesGetAll (projectID : String)
  | DeploymentProcessesGetByID (id : String)
  | RunbooksGet (link : String)
  | RunbookProcessesGetByID (id : String)
  | LifecyclesGetAll
  | EnvironmentsGetAll
  | ChannelsGetAll
  | EnvironmentsGet
  | MachinesGetAll
  | ProjectGroupsGetByName (name : String)
  | ProjectGroupsGetProjects (groupID : String)
  deriving DecidableEq, Repr

/-- A non-nil `*client.Client` seen as a snapshot: what each data-access call the checks make
returns. A pointer result that may be `nil` is an option. `GetProjectsWithFilter` and
`GetProjects` are the functions of the package `client_wrapper`, called with this client. -/
structure Client where
  SpaceID : String
  Projects_GetAll : Except GoError (List Project)
  GetProjectsWithFilter : String → List String → List String → Int →
    Except GoError (List Project)
  GetProjects : Int → String → Except GoError (List Project)
  Variables_GetAll : String → Except GoError VariableSet
  DeploymentProcesses_GetByID : String → Except GoError (Option DeploymentProcess)
  Runbooks_Get : String → Except GoError (List Runbook)
  RunbookProcesses_GetByID : String → Except GoError (Option RunbookProcess)
  Lifecycles_GetAll : Except GoError (List Lifecycle)
  Environments_GetAll : Except GoError (List Environment)
  Channels_GetAll : Except GoError (List Channel)
  Environments_Get : EnvironmentsQuery → Except GoError (Option (List Environment))
  Machines_GetAll : Except GoError (List DeploymentTarget)
  ProjectGroups_GetByName : String → Except GoError (Option ProjectGroup)
  ProjectGroups_GetProjects : ProjectGroup → Except GoError (List Project)

/-- How a call of `Execute` ends: it returns its pair, or the goroutine panics. -/
inductive Returned where
  | values (result : Option OctopusCheckResult) (err : Option GoError)
  | panic
  deriving DecidableEq, Repr

/-- A run of `Execute`: the data-access calls made, in order, and how the call ended. -/
structure Run where
  accesses : List Access
  returned : Returned
  deriving DecidableEq, Repr

/-- A run that returns at once. -/
def Run.ret (p : ResultAndError) : Run :=
  { accesses := [], returned := .values p.1 p.2 }

/-- A run that panics at once. -/
def Run.panicNow : Run :=
  { accesses := [], returned := .panic }

/-- The run `r` preceded by the calls `pre`. -/
def Run.after (pre : List Access) (r : Run) : Run :=
  { accesses := pre ++ r.accesses, returned := r.returned }

/-- How a helper or a loop inside `Execute` ends: with a value, with a non-nil error, or
with a panic. -/
inductive Call (α : Type) where
  | value (a : α)
  | error (err : GoError)
  | panic
  deriving Repr

/-- The package-level regular-expression functions of Go: `regexp.Compile` and the method
`Match` of a compiled expression. -/
structure RegexpPackage where
  Regexp : Type
  Compile : String → Except GoError Regexp
  Match : Regexp → String → Bool

/-- The value of a call, mapped. -/
def Call.map {α β : Type} (f : α → β) : Call α → Call β
  | .value a => .value (f a)
  | .error err => .error err
  | .panic => .panic

/-- A helper's calls and end, preceded by the calls `pre`. -/
def Call.after {α : Type} (pre : List Access) (r : List Access × Call α) :
    List Access × Call α :=
  (pre ++ r.1, r.2)

/-- Go `fmt.Sprint` of an integer. -/
def fmtSprint (n : Int) : String := toString n

/-! ## `organization/octopus_duplicated_variables_check.go` -/

/-- An entry of the list of duplicates: the four pointers of the Go struct, dereferenced. -/
structure projectVar where
  project1 : Project
  variable1 : Variable
  project2 : Project
  variable2 : Variable
  deriving DecidableEq, Repr

/-- The check for variables with the same value across projects. -/
structure OctopusDuplicatedVariablesCheck where
  client : Option Client
  errorHandler : OctopusClientErrorHandler

namespace OctopusDuplicatedVariablesCheck

/-- The identifier of the check. -/
def Id (_o : OctopusDuplicatedVariablesCheck) : String := "OctoLintDuplicatedVariables"

/-- The method `shouldIgnoreVariable`; `SpecialVars` is the list `checks.SpecialVars`. -/
def shouldIgnoreVariable (SpecialVars : List String) (v : Variable) : Bool :=
  let err := strconvAtoi v.Value
  v.Value == "" ||
    v.Type_ != "String" ||
    slicesIndex SpecialVars v.Name != -1 ||
    stringsToLower v.Value == "true" ||
    stringsToLower v.Value == "false" ||
    stringsToLower v.Value == "yes" ||
    stringsToLower v.Value == "no" ||
    err.isSome

/-- The loop that fills the map `projectVars`: one fetch per project; a failed fetch ends
the run when the handler says not to continue and is skipped otherwise. The key of an entry
is the position of the project in the slice. -/
def fetchProjectVars (client : Client) (errorHandler : OctopusClientErrorHandler) :
    List (Nat × Project) → List Access × Except GoError (List (Nat × VariableSet))
  | [] => ([], .ok [])
  | (i, p) :: rest =>
    match client.Variables_GetAll p.ID with
    | .error err =>
      if !errorHandler.ShouldContinue err then ([.VariablesGetAll p.ID], .error err)
      else
        let r := fetchProjectVars client errorHandler rest
        (.VariablesGetAll p.ID :: r.1, r.2)
    | .ok variableSet =>
      let r := fetchProjectVars client errorHandler rest
      (.VariablesGetAll p.ID :: r.1,
        match r.2 with
        | .error err => .error err
        | .ok m => .ok ((i, variableSet) :: m))

/-- The map read `projectVars[project]`: the zero variable set for a missing key. -/
def lookupVars (projectVars : List (Nat × VariableSet)) (index : Nat) : VariableSet :=
  match projectVars.lookup index with
  | some variableSet => variableSet
  | none => { Variables := [] }

/-- The four nested loops that collect `duplicateVars`. -/
def duplicateVars (SpecialVars : List String) (projects : List Project)
    (projectVars : List (Nat × VariableSet)) : List projectVar :=
  projects.enum.flatMap fun (index1, project1) =>
    (lookupVars projectVars index1).Variables.flatMap fun variable1 =>
      if shouldIgnoreVariable SpecialVars variable1 then []
      else
        (projects.enum.drop (index1 + 1)).flatMap fun (index2, project2) =>
          (lookupVars projectVars index2).Variables.flatMap fun variable2 =>
            if variable1.Value = variable2.Value then
              [{ project1 := project1, variable1 := variable1, project2 := project2,
                 variable2 := variable2 }]
            else []

/-- The line of the message for one entry. -/
def messageLine (entry : projectVar) : String :=
  entry.project1.Name ++ "/" ++ entry.variable1.Name ++ " == " ++
    entry.project2.Name ++ "/" ++ entry.variable2.Name

/-- The end of `Execute`: the result built from the collected entries. -/
def report (o : OctopusDuplicatedVariablesCheck) (duplicateVars : List projectVar) :
    ResultAndError :=
  if duplicateVars.length > 0 then
    let messages := duplicateVars.map messageLine
    (some (NewOctopusCheckResultImpl
      ("The following variables are duplicated between projects. Consider moving these into library variable sets:\n" ++
        stringsJoin messages "\n")
      o.Id "" .Warning .Organization), none)
  else
    (some (NewOctopusCheckResultImpl "There are no duplicated variables" o.Id "" .Ok
      .Organization), none)

/-- The method `Execute`. -/
def Execute (SpecialVars : List String) (o : OctopusDuplicatedVariablesCheck) : Run :=
  match o.client with
  | none => Run.ret (none, some (errorsNew "octoclient is nil"))
  | some client =>
    Run.after [.ProjectsGetAll] <|
      match client.Projects_GetAll with
      | .error err => Run.ret (o.errorHandler.HandleError o.Id .Organization err)
      | .ok projects =>
        match fetchProjectVars client o.errorHandler projects.enum with
        | (accesses, .error err) => Run.after accesses (Run.ret (none, some err))
        | (accesses, .ok projectVars) =>
          Run.after accesses (Run.ret (o.report (duplicateVars SpecialVars projects projectVars)))

end OctopusDuplicatedVariablesCheck

/-! ## `naming/octopus_project_uses_invalid_container_image.go` -/

/-- The check of container images against the configured regular expression. -/
structure OctopusProjectContainerImageRegex where
  client : Option Client
  errorHandler : OctopusClientErrorHandler
  config : Option OctolintConfig

namespace OctopusProjectContainerImageRegex

/-- The constant `OctoLintContainerImageName`. -/
def OctoLintContainerImageName : String := "OctoLintProjectContainerImageName"

/-- The identifier of the check. -/
def Id (_o : OctopusProjectContainerImageRegex) : String := OctoLintContainerImageName

/-- The method `stepsInDeploymentProcess`, for the non-nil client of the check. The type
assertion `err.(*core.APIError)` panics on an error of another type. -/
def stepsInDeploymentProcess (client : Client) (deploymentProcessID : String) :
    List Access × Call (Option DeploymentProcess) :=
  if deploymentProcessID == "" then ([], .value none)
  else
    match client.DeploymentProcesses_GetByID deploymentProcessID with
    | .error (.apiError statusCode msg) =>
      if statusCode == 404 then ([.DeploymentProcessesGetByID deploymentProcessID], .value none)
      else ([.DeploymentProcessesGetByID deploymentProcessID],
        .error (.apiError statusCode msg))
    | .error (.other _) => ([.DeploymentProcessesGetByID deploymentProcessID], .panic)
    | .ok resource => ([.DeploymentProcessesGetByID deploymentProcessID], .value resource)

/-- The two inner loops of `Execute`: the lines for the actions of one deployment process
whose container image does not match. -/
def invalidImages (R : RegexpPackage) (regex : R.Regexp) (p : Project)
    (deploymentProcess : DeploymentProcess) : List String :=
  deploymentProcess.Steps.flatMap fun s =>
    s.Actions.flatMap fun a =>
      match a.Container with
      | none => []
      | some container =>
        if stringsTrimSpace container.Image == "" then []
        else if !R.Match regex container.Image then
          [p.Name ++ "/" ++ a.Name ++ ": " ++ container.Image]
        else []

/-- The loop of `Execute` over the projects. -/
def scanProjects (R : RegexpPackage) (regex : R.Regexp) (client : Client)
    (errorHandler : OctopusClientErrorHandler) : List Project → List Access × Call (List String)
  | [] => ([], .value [])
  | p :: rest =>
    match stepsInDeploymentProcess client p.DeploymentProcessID with
    | (accesses, .panic) => (accesses, .panic)
    | (accesses, .error err) =>
      if !errorHandler.ShouldContinue err then (accesses, .error err)
      else Call.after accesses (scanProjects R regex client errorHandler rest)
    | (accesses, .value none) =>
      Call.after accesses (scanProjects R regex client errorHandler rest)
    | (accesses, .value (some deploymentProcess)) =>
      let r := scanProjects R regex client errorHandler rest
      (accesses ++ r.1, r.2.map fun found => invalidImages R regex p deploymentProcess ++ found)

/-- The end of `Execute`: the result built from the collected lines. -/
def report (o : OctopusProjectContainerImageRegex) (config : OctolintConfig)
    (actionsWithInvalidImages : List String) : ResultAndError :=
  if actionsWithInvalidImages.length > 0 then
    (some (NewOctopusCheckResultImpl
      ("The following project actions do not match the regex " ++ config.ContainerImageRegex ++
        ":\n" ++ stringsJoin actionsWithInvalidImages "\n")
      o.Id "" .Warning .Organization), none)
  else
    (some (NewOctopusCheckResultImpl "There are no project actions with invalid container images"
      o.Id "" .Ok .Organization), none)

/-- The method `Execute`. The argument `concurrency` is not read. -/
def Execute (R : RegexpPackage) (o : OctopusProjectContainerImageRegex) (_concurrency : Int) :
    Run :=
  match o.client with
  | none => Run.ret (none, some (errorsNew "octoclient is nil"))
  | some client =>
    match o.config with
    | none => Run.panicNow
    | some config =>
      if stringsTrimSpace config.ContainerImageRegex == "" then Run.ret (none, none)
      else
        match R.Compile config.ContainerImageRegex with
        | .error _ =>
          Run.ret (some (NewOctopusCheckResultImpl
            ("The supplied regex " ++ config.ContainerImageRegex ++ " does not compile")
            o.Id "" .Error .Naming), none)
        | .ok regex =>
          Run.after [.GetProjectsWithFilter] <|
            match client.GetProjectsWithFilter client.SpaceID config.ExcludeProjectsExcept
                config.ExcludeProjects config.MaxInvalidContainerImageProjects with
            | .error err => Run.ret (o.errorHandler.HandleError o.Id .Naming err)
            | .ok projects =>
              match scanProjects R regex client o.errorHandler projects with
              | (accesses, .panic) => { accesses := accesses, returned := .panic }
              | (accesses, .error err) => Run.after accesses (Run.ret (none, some err))
              | (accesses, .value actionsWithInvalidImages) =>
                Run.after accesses (Run.ret (o.report config actionsWithInvalidImages))

end OctopusProjectContainerImageRegex

/-! ## `organization/octopus_project_too_many_steps_check.go` -/

/-- The constant `maxStepCount`. -/
def maxStepCount : Int := 20

/-- The check for projects with too many steps. -/
structure OctopusProjectTooManyStepsCheck where
  client : Option Client
  errorHandler : OctopusClientErrorHandler
  config : Option OctolintConfig

namespace OctopusProjectTooManyStepsCheck

/-- The identifier of the check. -/
def Id (_o : OctopusProjectTooManyStepsCheck) : String := "OctoLintTooManySteps"

/-- The method `stepsInDeploymentProcess`, for the non-nil client of the check. The type
assertion `err.(*core.APIError)` panics on an error of another type, and so does
`resource.Steps` on a nil resource. -/
def stepsInDeploymentProcess (client : Client) (deploymentProcessID : String) :
    List Access × Call Int :=
  if deploymentProcessID == "" then ([], .value 0)
  else
    match client.DeploymentProcesses_GetByID deploymentProcessID with
    | .error (.apiError statusCode msg) =>
      if statusCode == 404 then ([.DeploymentProcessesGetByID deploymentProcessID], .value 0)
      else ([.DeploymentProcessesGetByID deploymentProcessID],
        .error (.apiError statusCode msg))
    | .error (.other _) => ([.DeploymentProcessesGetByID deploymentProcessID], .panic)
    | .ok none => ([.DeploymentProcessesGetByID deploymentProcessID], .panic)
    | .ok (some resource) =>
      ([.DeploymentProcessesGetByID deploymentProcessID], .value (resource.Steps.length : Int))

/-- The loop of `Execute` over the projects. -/
def scanProjects (client : Client) (errorHandler : OctopusClientErrorHandler) :
    List Project → List Access × Call (List String)
  | [] => ([], .value [])
  | p :: rest =>
    match stepsInDeploymentProcess client p.DeploymentProcessID with
    | (accesses, .panic) => (accesses, .panic)
    | (accesses, .error err) =>
      if !errorHandler.ShouldContinue err then (accesses, .error err)
      else Call.after accesses (scanProjects client errorHandler rest)
    | (accesses, .value stepCount) =>
      let r := scanProjects client errorHandler rest
      (accesses ++ r.1,
        r.2.map fun found => if stepCount ≥ maxStepCount then p.Name :: found else found)

/-- The end of `Execute`: the result built from the collected project names. -/
def report (o : OctopusProjectTooManyStepsCheck) (complexProjects : List String) :
    ResultAndError :=
  if complexProjects.length > 0 then
    (some (NewOctopusCheckResultImpl
      ("The following projects have 20 or more steps:\n" ++ stringsJoin complexProjects "\n")
      o.Id "" .Warning .Organization), none)
  else
    (some (NewOctopusCheckResultImpl "There are no projects with too many steps"
      o.Id "" .Ok .Organization), none)

/-- The method `Execute`. -/
def Execute (o : OctopusProjectTooManyStepsCheck) : Run :=
  match o.client with
  | none => Run.ret (none, some (errorsNew "octoclient is nil"))
  | some client =>
    match o.config with
    | none => Run.panicNow
    | some _ =>
      Run.after [.ProjectsGetAll] <|
        match client.Projects_GetAll with
        | .error err => Run.ret (o.errorHandler.HandleError o.Id .Organization err)
        | .ok projects =>
          match scanProjects client o.errorHandler projects with
          | (accesses, .panic) => { accesses := accesses, returned := .panic }
          | (accesses, .error err) => Run.after accesses (Run.ret (none, some err))
          | (accesses, .value complexProjects) =>
            Run.after accesses (Run.ret (o.report complexProjects))

end OctopusProjectTooManyStepsCheck

/-! ## `organization/octopus_environment_count_check.go` -/

/-- The check of the number of environments in the space. -/
structure OctopusEnvironmentCountCheck where
  client : Option Client
  errorHandler : OctopusClientErrorHandler
  config : Option OctolintConfig

namespace OctopusEnvironmentCountCheck

/-- The constant `OctopusEnvironmentCountCheckName`. -/
def OctopusEnvironmentCountCheckName : String := "OctoLintEnvironmentCount"

/-- The identifier of the check. -/
def Id (_o : OctopusEnvironmentCountCheck) : String := OctopusEnvironmentCountCheckName

/-- The link both results carry. -/
def link : String :=
  "https://octopus.com/docs/getting-started/best-practices/environments-and-deployment-targets-and-roles#environments"

/-- The method `Execute`. -/
def Execute (o : OctopusEnvironmentCountCheck) : Run :=
  match o.client with
  | none => Run.ret (none, some (errorsNew "octoclient is nil"))
  | some client =>
    let query : EnvironmentsQuery := { PartialName := "", Skip := 0, Take := 1000 }
    Run.after [.EnvironmentsGet] <|
      match client.Environments_Get query with
      | .error err => Run.ret (o.errorHandler.HandleError o.Id .Organization err)
      | .ok none => Run.panicNow
      | .ok (some items) =>
        match o.config with
        | none => Run.panicNow
        | some config =>
          if (items.length : Int) > config.MaxEnvironments then
            Run.ret (some (NewOctopusCheckResultImpl
              ("The recommended maximum number of environments is " ++
                fmtSprint config.MaxEnvironments ++ ". You have at least " ++
                fmtSprint items.length)
              o.Id link .Warning .Organization), none)
          else
            Run.ret (some (NewOctopusCheckResultImpl
              "The number of environments in the space is OK" o.Id link .Ok .Organization), none)

end OctopusEnvironmentCountCheck

/-! ## `organization/octopus_default_project_group_count.go` -/

/-- The constant `maxProjectsInDefaultGroup`. -/
def maxProjectsInDefaultGroup : Int := 10

/-- The check of the number of projects in the default project group. -/
structure OctopusDefaultProjectGroupCountCheck where
  client : Option Client
  errorHandler : OctopusClientErrorHandler
  config : Option OctolintConfig

namespace OctopusDefaultProjectGroupCountCheck

/-- The identifier of the check. -/
def Id (_o : OctopusDefaultProjectGroupCountCheck) : String :=
  "OctoLintDefaultProjectGroupChildCount"

/-- The condition `ok && apiError.StatusCode == 404` after `apiError, ok := err.(*core.APIError)`. -/
def isNotFound : GoError → Bool
  | .apiError statusCode _ => statusCode == 404
  | .other _ => false

/-- The result returned when nothing is wrong with the default project group. -/
def okResult (o : OctopusDefaultProjectGroupCountCheck) : ResultAndError :=
  (some (NewOctopusCheckResultImpl "The number of projects in the default project group is OK"
    o.Id "" .Ok .Organization), none)

/-- The method `Execute`. -/
def Execute (o : OctopusDefaultProjectGroupCountCheck) : Run :=
  match o.client with
  | none => Run.ret (none, some (errorsNew "octoclient is nil"))
  | some client =>
    match o.config with
    | none => Run.panicNow
    | some _ =>
      Run.after [.ProjectGroupsGetByName "Default Project Group"] <|
        match client.ProjectGroups_GetByName "Default Project Group" with
        | .error err =>
          if isNotFound err || err.Error == "cannot find the item" then
            Run.ret (some (NewOctopusCheckResultImpl "The default project group was not found"
              o.Id "" .Ok .Organization), none)
          else Run.ret (o.errorHandler.HandleError o.Id .Organization err)
        | .ok none => Run.ret o.okResult
        | .ok (some resource) =>
          Run.after [.ProjectGroupsGetProjects resource.ID] <|
            match client.ProjectGroups_GetProjects resource with
            | .error err => Run.ret (o.errorHandler.HandleError o.Id .Organization err)
            | .ok projects =>
              if (projects.length : Int) > maxProjectsInDefaultGroup then
                Run.ret (some (NewOctopusCheckResultImpl
                  ("The default project group contains " ++ fmtSprint projects.length ++
                    " projects. You may want to organize these projects into additional project groups.")
                  o.Id "" .Warning .Organization), none)
              else Run.ret o.okResult

end OctopusDefaultProjectGroupCountCheck

/-! ## `security/octopus_insecure_k8s_check.go` -/

/-- The check for Kubernetes targets that skip TLS validation or use plain HTTP. -/
structure OctopusInsecureK8sCheck where
  client : Option Client
  errorHandler : OctopusClientErrorHandler
  config : Option OctolintConfig

namespace OctopusInsecureK8sCheck

/-- The identifier of the check. -/
def Id (_o : OctopusInsecureK8sCheck) : String := "OctoLintInsecureK8sTargets"

/-- The condition under which a Kubernetes endpoint is listed. -/
def insecureEndpoint (k8sEndpoint : KubernetesEndpoint) : Bool :=
  k8sEndpoint.SkipTLSVerification ||
    (match k8sEndpoint.ClusterURL with
      | some url => stringsHasPrefix url "http://"
      | none => false)

/-- The loop over the filtered targets. The type assertion
`m.Endpoint.(*machines.KubernetesEndpoint)` panics on an endpoint of another type. -/
def insecureMachines : List DeploymentTarget → Call (List String)
  | [] => .value []
  | m :: rest =>
    match m.Endpoint with
    | .otherKind _ => .panic
    | .kubernetes k8sEndpoint =>
      (insecureMachines rest).map fun found =>
        if insecureEndpoint k8sEndpoint then m.Name :: found else found

/-- The end of `Execute`: the result built from the collected target names. -/
def report (o : OctopusInsecureK8sCheck) (insecure : List String) : ResultAndError :=
  if insecure.length > 0 then
    (some (NewOctopusCheckResultImpl
      ("The following Kubernetes skip TLS validation or use an insecure HTTP endpoint:\n" ++
        stringsJoin insecure "\n")
      o.Id "" .Warning .Security), none)
  else
    (some (NewOctopusCheckResultImpl "There are no insecure Kubernetes targets"
      o.Id "" .Ok .Security), none)

/-- The method `Execute`. -/
def Execute (o : OctopusInsecureK8sCheck) : Run :=
  match o.client with
  | none => Run.ret (none, some (errorsNew "octoclient is nil"))
  | some client =>
    match o.config with
    | none => Run.panicNow
    | some _ =>
      Run.after [.MachinesGetAll] <|
        match client.Machines_GetAll with
        | .error err => Run.ret (o.errorHandler.HandleError o.Id .Security err)
        | .ok targets =>
          let k8sTargets := targets.filter fun item =>
            item.Endpoint.GetCommunicationStyle == "Kubernetes"
          match insecureMachines k8sTargets with
          | .panic => Run.panicNow
          | .error err => Run.ret (none, some err)
          | .value insecure => Run.ret (o.report insecure)

end OctopusInsecureK8sCheck

/-! ## `organization/octopus_project_specific_environment_check.go` -/

/-- The check for environments that a single project deploys to. -/
structure OctopusProjectSpecificEnvironmentCheck where
  client : Option Client
  errorHandler : OctopusClientErrorHandler
  config : Option OctolintConfig

namespace OctopusProjectSpecificEnvironmentCheck

/-- The constant `OctoLintProjectSpecificEnvs`. -/
def OctoLintProjectSpecificEnvs : String := "OctoLintProjectSpecificEnvs"

/-- The identifier of the check. -/
def Id (_o : OctopusProjectSpecificEnvironmentCheck) : String := OctoLintProjectSpecificEnvs

/-- The method `getLifecycleById`: the first lifecycle with the id, or `nil`. -/
def getLifecycleById (lifecycles : List Lifecycle) (id : String) : Option Lifecycle :=
  match lifecycles with
  | [] => none
  | l :: rest => if l.ID == id then some l else getLifecycleById rest id

/-- The method `getEnvironmentById`: the first environment with the id, or `nil`. -/
def getEnvironmentById (environment : List Environment) (id : String) : Option Environment :=
  match environment with
  | [] => none
  | l :: rest => if l.ID == id then some l else getEnvironmentById rest id

/-- The method `getAllEnvironmentIds`. -/
def getAllEnvironmentIds (environment : List Environment) : List String :=
  environment.map fun l => l.ID

/-- The loop over the phases of a lifecycle: the automatic, then the optional deployment
targets of each phase. -/
def phaseEnvironments (phases : List Phase) : List String :=
  phases.flatMap fun phase => phase.AutomaticDeploymentTargets ++ phase.OptionalDeploymentTargets

/-- The slice `projectEnvironments` that `Execute` builds for the project `p`: first from the
lifecycle of the project, then from the channels of the project. In the loop over the
channels the test for zero phases reads the variable `lifecycle`, the lifecycle of the
project. -/
def projectEnvironments (allLifecycles : List Lifecycle) (allEnvironments : List Environment)
    (allChannels : List Channel) (p : Project) : List String :=
  let lifecycle := getLifecycleById allLifecycles p.LifecycleID
  let fromLifecycle : List String :=
    match lifecycle with
    | none => []
    | some lifecycle =>
      (if lifecycle.Phases.length == 0 then getAllEnvironmentIds allEnvironments else []) ++
        phaseEnvironments lifecycle.Phases
  let fromChannels : List String :=
    allChannels.flatMap fun c =>
      if c.ProjectID == p.ID then
        match getLifecycleById allLifecycles c.LifecycleID with
        | none => []
        | some channelLifecycle =>
          (match lifecycle with
            | none => []
            | some lifecycle =>
              if lifecycle.Phases.length == 0 then getAllEnvironmentIds allEnvironments
              else []) ++
            phaseEnvironments channelLifecycle.Phases
      else []
  fromLifecycle ++ fromChannels

/-- The map update `environmentCount[env] = append(environmentCount[env], name)`, a new key
starting from the empty slice. -/
def addProject (environmentCount : List (String × List String)) (env name : String) :
    List (String × List String) :=
  match environmentCount with
  | [] => [(env, [name])]
  | (k, v) :: rest =>
    if k == env then (k, v ++ [name]) :: rest else (k, v) :: addProject rest env name

/-- One round of the loop that counts a project against its environments; the state is
`environmentCount` and `processedEnvironments`. -/
def countStep (p : Project) (state : List (String × List String) × List String)
    (env : String) : List (String × List String) × List String :=
  if slicesIndex state.2 env != -1 then state
  else (addProject state.1 env p.Name, state.2 ++ [env])

/-- The loop that counts the project `p` against each of its environments once. -/
def countProject (environmentCount : List (String × List String)) (p : Project)
    (projectEnvs : List String) : List (String × List String) :=
  (projectEnvs.foldl (countStep p) (environmentCount, [])).1

/-- The map `environmentCount` after the loop over the projects, each given with its slice
`projectEnvironments`. -/
def countProjects (reach : List (Project × List String)) : List (String × List String) :=
  reach.foldl (fun environmentCount pe => countProject environmentCount pe.1 pe.2) []

/-- The map `singleProjectEnvironments`: the environments with one project. The Go code
ranges over the map `environmentCount`, in an order Go leaves unspecified; the entries are
taken here in the order of insertion. -/
def singleProjectEnvironments (environmentCount : List (String × List String)) :
    List (String × String) :=
  environmentCount.filterMap fun (env, envProjects) =>
    match envProjects with
    | [envProject] => some (env, envProject)
    | _ => none

/-- The lines of the warning; `getEnvironmentById(...).Name` panics when the lookup
returns `nil`. The Go code ranges over the map `singleProjectEnvironments`, in an order Go
leaves unspecified; the lines are built here in the order of the list, so the text of a
warning with two or more lines is one of the texts the code can print. -/
def messages (allEnvironments : List Environment) : List (String × String) → Call (List String)
  | [] => .value []
  | (env, envProject) :: rest =>
    match getEnvironmentById allEnvironments env with
    | none => .panic
    | some environment =>
      (messages allEnvironments rest).map fun found =>
        (environment.Name ++ " (" ++ envProject ++ ")") :: found

/-- The end of `Execute`: the result built from the environments with one project. -/
def report (o : OctopusProjectSpecificEnvironmentCheck) (allEnvironments : List Environment)
    (single : List (String × String)) : Run :=
  if single.length > 0 then
    match messages allEnvironments single with
    | .panic => Run.panicNow
    | .error err => Run.ret (none, some err)
    | .value lines =>
      Run.ret (some (NewOctopusCheckResultImpl
        ("The following environments are used by a single project:\n" ++ stringsJoin lines "\n")
        o.Id "" .Warning .Organization), none)
  else
    Run.ret (some (NewOctopusCheckResultImpl "There are no single project environments"
      o.Id "" .Ok .Organization), none)

/-- The part of `Execute` after the four fetches. -/
def analyse (o : OctopusProjectSpecificEnvironmentCheck) (projects : List Project)
    (allLifecycles : List Lifecycle) (allEnvironments : List Environment)
    (allChannels : List Channel) : Run :=
  let environmentCount := countProjects
    (projects.map fun p => (p, projectEnvironments allLifecycles allEnvironments allChannels p))
  o.report allEnvironments (singleProjectEnvironments environmentCount)

/-- The method `Execute`. -/
def Execute (o : OctopusProjectSpecificEnvironmentCheck) : Run :=
  match o.client with
  | none => Run.ret (none, some (errorsNew "octoclient is nil"))
  | some client =>
    match o.config with
    | none => Run.panicNow
    | some config =>
      Run.after [.GetProjects] <|
        match client.GetProjects config.MaxProjectSpecificEnvironmentProjects client.SpaceID with
        | .error err => Run.ret (o.errorHandler.HandleError o.Id .Organization err)
        | .ok projects =>
          Run.after [.LifecyclesGetAll] <|
            match client.Lifecycles_GetAll with
            | .error err => Run.ret (o.errorHandler.HandleError o.Id .Organization err)
            | .ok allLifecycles =>
              Run.after [.EnvironmentsGetAll] <|
                match client.Environments_GetAll with
                | .error err => Run.ret (o.errorHandler.HandleError o.Id .Organization err)
                | .ok allEnvironments =>
                  Run.after [.ChannelsGetAll] <|
                    match client.Channels_GetAll with
                    | .error err => Run.ret (o.errorHandler.HandleError o.Id .Organization err)
                    | .ok allChannels =>
                      o.analyse projects allLifecycles allEnvironments allChannels

/-- The names of the projects of the list that reach the environment `env`, a project once
for each of its places in the list, whatever the number of times `env` occurs in its slice. -/
def reachingProjects (reach : List (Project × List String)) (env : String) : List String :=
  (reach.filter fun pe => decide (env ∈ pe.2)).map fun pe => pe.1.Name

/-- The name of the environment with the id, empty when there is none. -/
def environmentName (allEnvironments : List Environment) (id : String) : String :=
  match getEnvironmentById allEnvironments id with
  | some environment => environment.Name
  | none => ""

end OctopusProjectSpecificEnvironmentCheck

/-! ## `organization/octopus_unused_variables_check.go` -/

/-- The check for project variables that no step and no other variable mentions. -/
structure OctopusUnusedVariablesCheck where
  client : Option Client
  errorHandler : OctopusClientErrorHandler
  config : Option OctolintConfig

namespace OctopusUnusedVariablesCheck

/-- The constant `OctoLintUnusedVariables`. -/
def OctoLintUnusedVariables : String := "OctoLintUnusedVariables"

/-- The identifier of the check. -/
def Id (_o : OctopusUnusedVariablesCheck) : String := OctoLintUnusedVariables

/-- The scan behind `linkOptions.ReplaceAllString(link, "")` for the expression
`\{.*?}`: every leftmost shortest run from an opening brace to the next closing brace on
the same line is removed. `pending` holds, reversed, the text since an opening brace that
has not been closed yet. -/
def linkOptionsStrip : List Char → Option (List Char) → List Char
  | [], none => []
  | [], some pending => pending.reverse
  | c :: cs, none =>
    if c = '{' then linkOptionsStrip cs (some [c]) else c :: linkOptionsStrip cs none
  | c :: cs, some pending =>
    if c = '}' then linkOptionsStrip cs none
    else if c = '\n' then pending.reverse ++ c :: linkOptionsStrip cs none
    else linkOptionsStrip cs (some (c :: pending))

/-- The call `linkOptions.ReplaceAllString(link, "")`. -/
def linkOptionsReplaceAll (link : String) : String :=
  String.mk (linkOptionsStrip link.data none)

/-- The loop of `getDeploymentSteps` over the runbooks. -/
def runbookSteps (client : Client) (errorHandler : OctopusClientErrorHandler) :
    List Runbook → List Access × Call (List DeploymentStep)
  | [] => ([], .value [])
  | runbook :: rest =>
    match client.RunbookProcesses_GetByID runbook.RunbookProcessID with
    | .error err =>
      if !errorHandler.ShouldContinue err then
        ([.RunbookProcessesGetByID runbook.RunbookProcessID], .error err)
      else
        Call.after [.RunbookProcessesGetByID runbook.RunbookProcessID]
          (runbookSteps client errorHandler rest)
    | .ok runbookProcess =>
      let r := runbookSteps client errorHandler rest
      (.RunbookProcessesGetByID runbook.RunbookProcessID :: r.1,
        r.2.map fun found =>
          (match runbookProcess with
            | some process => process.Steps
            | none => []) ++ found)

/-- The second half of `getDeploymentSteps`, after the steps of the deployment process have
been collected: the runbooks behind the link `Runbooks`. When the fetch of the runbooks
fails and the handler says to continue, `runbooks` is nil and `runbooks.Items` panics. -/
def runbookPart (client : Client) (errorHandler : OctopusClientErrorHandler) (p : Project)
    (deploymentProcesses : List DeploymentStep) : List Access × Call (List DeploymentStep) :=
  match p.Links.lookup "Runbooks" with
  | none => ([], .value deploymentProcesses)
  | some link =>
    match client.Runbooks_Get (linkOptionsReplaceAll link) with
    | .error err =>
      if !errorHandler.ShouldContinue err then
        ([.RunbooksGet (linkOptionsReplaceAll link)], .error err)
      else ([.RunbooksGet (linkOptionsReplaceAll link)], .panic)
    | .ok items =>
      let r := runbookSteps client errorHandler items
      (.RunbooksGet (linkOptionsReplaceAll link) :: r.1,
        r.2.map fun found => deploymentProcesses ++ found)

/-- The method `getDeploymentSteps`, for the non-nil client of the check. -/
def getDeploymentSteps (client : Client) (errorHandler : OctopusClientErrorHandler)
    (p : Project) : List Access × Call (List DeploymentStep) :=
  match client.DeploymentProcesses_GetByID p.DeploymentProcessID with
  | .error err =>
    if !errorHandler.ShouldContinue err then
      ([.DeploymentProcessesGetByID p.DeploymentProcessID], .error err)
    else
      Call.after [.DeploymentProcessesGetByID p.DeploymentProcessID]
        (runbookPart client errorHandler p [])
  | .ok deploymentProcess =>
    Call.after [.DeploymentProcessesGetByID p.DeploymentProcessID]
      (runbookPart client errorHandler p
        (match deploymentProcess with
          | some process => process.Steps
          | none => []))

/-- The method `naiveStepVariableScan`: the name of the variable occurs in the value of a
property of an action, or in the feed id or package id of a package of an action. -/
def naiveStepVariableScan (deploymentSteps : List DeploymentStep) (v : Variable) : Bool :=
  deploymentSteps.any fun s =>
    s.Actions.any fun a =>
      (a.Properties.any fun p => stringsContains p.2 v.Name) ||
        (a.Packages.any fun p =>
          stringsContains p.FeedID v.Name || stringsContains p.PackageID v.Name)

/-- The method `naiveVariableSetVariableScan`: the name of the variable occurs in the value
of a variable of the set. The loop runs over every variable of the set. -/
def naiveVariableSetVariableScan (variableSet : VariableSet) (v : Variable) : Bool :=
  variableSet.Variables.any fun w => stringsContains w.Value v.Name

/-- The loop of `Execute` over the variables of one project: the variables appended to
`unusedVars[p]`. `IgnoreVariable` is the function `checks.IgnoreVariable`. -/
def unusedOf (IgnoreVariable : String → Bool) (deploymentSteps : List DeploymentStep)
    (variableSet : VariableSet) : List Variable :=
  variableSet.Variables.flatMap fun v =>
    if IgnoreVariable v.Name then []
    else
      let used := naiveStepVariableScan deploymentSteps v ||
        naiveVariableSetVariableScan variableSet v
      if !used then [v] else []

/-- The loop of `Execute` over the projects, which fills the map `unusedVars`. A project gets
a key only when one of its variables is appended, and only during its own round, so the map
is the list of the projects with at least one unused variable, each with its variables. -/
def scanProjects (IgnoreVariable : String → Bool) (client : Client)
    (errorHandler : OctopusClientErrorHandler) :
    List Project → List Access × Call (List (Project × List Variable))
  | [] => ([], .value [])
  | p :: rest =>
    match client.Variables_GetAll p.ID with
    | .error err =>
      if !errorHandler.ShouldContinue err then ([.VariablesGetAll p.ID], .error err)
      else Call.after [.VariablesGetAll p.ID] (scanProjects IgnoreVariable client errorHandler rest)
    | .ok variableSet =>
      match getDeploymentSteps client errorHandler p with
      | (accesses, .panic) => (.VariablesGetAll p.ID :: accesses, .panic)
      | (accesses, .error err) =>
        if !errorHandler.ShouldContinue err then (.VariablesGetAll p.ID :: accesses, .error err)
        else
          Call.after (.VariablesGetAll p.ID :: accesses)
            (scanProjects IgnoreVariable client errorHandler rest)
      | (accesses, .value deploymentSteps) =>
        let r := scanProjects IgnoreVariable client errorHandler rest
        (.VariablesGetAll p.ID :: accesses ++ r.1,
          r.2.map fun found =>
            match unusedOf IgnoreVariable deploymentSteps variableSet with
            | [] => found
            | v :: vs => (p, v :: vs) :: found)

/-- The end of `Execute`: the result built from the map `unusedVars`. -/
def report (o : OctopusUnusedVariablesCheck) (unusedVars : List (Project × List Variable)) :
    ResultAndError :=
  if unusedVars.length > 0 then
    let messages := unusedVars.flatMap fun (p, unused) =>
      unused.map fun v => p.Name ++ ": " ++ v.Name
    (some (NewOctopusCheckResultImpl
      ("The following variables may be unused (note there are edge cases octolint can't detect, so double check these before deleting them): \n" ++
        stringsJoin messages "\n")
      o.Id "" .Warning .Organization), none)
  else
    (some (NewOctopusCheckResultImpl "There are no unused variables" o.Id "" .Ok
      .Organization), none)

/-- The method `Execute`. -/
def Execute (IgnoreVariable : String → Bool) (o : OctopusUnusedVariablesCheck) : Run :=
  match o.client with
  | none => Run.ret (none, some (errorsNew "octoclient is nil"))
  | some client =>
    match o.config with
    | none => Run.panicNow
    | some config =>
      Run.after [.GetProjects] <|
        match client.GetProjects config.MaxUnusedVariablesProjects client.SpaceID with
        | .error err => Run.ret (o.errorHandler.HandleError o.Id .Organization err)
        | .ok projects =>
          match scanProjects IgnoreVariable client o.errorHandler projects with
          | (accesses, .panic) => { accesses := accesses, returned := .panic }
          | (accesses, .error err) => Run.after accesses (Run.ret (none, some err))
          | (accesses, .value unusedVars) => Run.after accesses (Run.ret (o.report unusedVars))

end OctopusUnusedVariablesCheck

/-! ## Snapshots used at concrete inputs -/

/-- A handler that converts every error into the pair `(nil, err)` and never continues. -/
def strictHandler : OctopusClientErrorHandler :=
  { HandleError := fun _ _ err => (none, some err), ShouldContinue := fun _ => false }

/-- A space with nothing in it: every fetch succeeds and returns nothing. -/
def emptySpace : Client :=
  { SpaceID := "Spaces-1"
    Projects_GetAll := .ok []
    GetProjectsWithFilter := fun _ _ _ _ => .ok []
    GetProjects := fun _ _ => .ok []
    Variables_GetAll := fun _ => .ok { Variables := [] }
    DeploymentProcesses_GetByID := fun _ => .ok none
    Runbooks_Get := fun _ => .ok []
    RunbookProcesses_GetByID := fun _ => .ok none
    Lifecycles_GetAll := .ok []
    Environments_GetAll := .ok []
    Channels_GetAll := .ok []
    Environments_Get := fun _ => .ok (some [])
    Machines_GetAll := .ok []
    ProjectGroups_GetByName := fun _ => .ok none
    ProjectGroups_GetProjects := fun _ => .ok [] }

/-- The default configuration: every option at its zero value. -/
def zeroConfig : OctolintConfig :=
  { Verbose := false, MaxEnvironments := 0, ContainerImageRegex := "",
    ExcludeProjectsExcept := [], ExcludeProjects := [], MaxInvalidContainerImageProjects := 0,
    MaxProjectSpecificEnvironmentProjects := 0, MaxUnusedVariablesProjects := 0 }

/-- A project `P` on the lifecycle `Lifecycles-1`. -/
def projectP : Project :=
  { ID := "Projects-1", Name := "P", DeploymentProcessID := "", LifecycleID := "Lifecycles-1",
    Links := [] }

/-- The environments `Dev` and `Prod`. -/
def devAndProd : List Environment :=
  [{ ID := "Environments-1", Name := "Dev" }, { ID := "Environments-2", Name := "Prod" }]

/-- A lifecycle with one phase that targets `Dev`, and a default lifecycle with no phase. -/
def devLifecycleAndDefault : List Lifecycle :=
  [{ ID := "Lifecycles-1",
     Phases := [{ AutomaticDeploymentTargets := ["Environments-1"],
                  OptionalDeploymentTargets := [] }] },
   { ID := "Lifecycles-2", Phases := [] }]

/-- A space where the project `P` uses a lifecycle that targets `Dev` and has a channel on
the default lifecycle, which has no phase. -/
def channelOverrideSpace : Client :=
  { emptySpace with
    GetProjects := fun _ _ => .ok [projectP]
    Lifecycles_GetAll := .ok devLifecycleAndDefault
    Environments_GetAll := .ok devAndProd
    Channels_GetAll := .ok [{ ProjectID := "Projects-1", LifecycleID := "Lifecycles-2" }] }

/-- A space where the lifecycle of the project `P` targets an environment id that is not
among the environments. -/
def danglingTargetSpace : Client :=
  { emptySpace with
    GetProjects := fun _ _ => .ok [projectP]
    Lifecycles_GetAll := .ok
      [{ ID := "Lifecycles-1",
         Phases := [{ AutomaticDeploymentTargets := ["Environments-9"],
                      OptionalDeploymentTargets := [] }] }]
    Environments_GetAll := .ok devAndProd }

/-- A project `Q` on the default lifecycle `Lifecycles-2`. -/
def projectQ : Project :=
  { ID := "Projects-2", Name := "Q", DeploymentProcessID := "", LifecycleID := "Lifecycles-2",
    Links := [] }

/-- A stand-in for the regular-expression package at concrete inputs: every expression
compiles and matches the texts that contain it literally. -/
def literalRegexp : RegexpPackage :=
  { Regexp := String, Compile := fun expr => .ok expr,
    Match := fun expr text => stringsContains text expr }

/-- A space with one project that has a deployment process. -/
def oneProjectSpace : Client :=
  { emptySpace with
    Projects_GetAll := .ok [{ projectP with DeploymentProcessID := "deploymentprocess-Projects-1" }]
    GetProjectsWithFilter := fun _ _ _ _ =>
      .ok [{ projectP with DeploymentProcessID := "deploymentprocess-Projects-1" }]
    DeploymentProcesses_GetByID := fun _ => .ok (some { Steps := [] }) }

/-- The project `ProjectA`. -/
def projectA : Project :=
  { ID := "Projects-1", Name := "ProjectA", DeploymentProcessID := "", LifecycleID := "",
    Links := [] }

/-- The project `ProjectB`. -/
def projectB : Project :=
  { ID := "Projects-2", Name := "ProjectB", DeploymentProcessID := "", LifecycleID := "",
    Links := [] }

/-- A plain text variable that holds the id of a worker pool. -/
def poolIdVariable : Variable :=
  { Name := "PoolId", Value := "WorkerPools-1", Type_ := "String" }

/-- A variable of the type `WorkerPool`, whose value is the id of the worker pool. -/
def poolVariable : Variable :=
  { Name := "Pool", Value := "WorkerPools-1", Type_ := "WorkerPool" }

/-- A space with the projects `first` and `second`, in this order, where `ProjectA` has the
plain text variable `PoolId` and `ProjectB` the worker-pool variable `Pool` of the same
value. -/
def poolSpace (first second : Project) : Client :=
  { emptySpace with
    Projects_GetAll := .ok [first, second]
    Variables_GetAll := fun projectID =>
      if projectID = "Projects-1" then .ok { Variables := [poolIdVariable] }
      else if projectID = "Projects-2" then .ok { Variables := [poolVariable] }
      else .ok { Variables := [] } }

/-- A plain text variable that holds the id of an account. -/
def accountIdVariable : Variable :=
  { Name := "AccountId", Value := "Accounts-1", Type_ := "String" }

/-- A variable of an account type, whose value is the id of the account. -/
def accountVariable : Variable :=
  { Name := "Account", Value := "Accounts-1", Type_ := "AmazonWebServicesAccount" }

/-- A space where `ProjectA` has the plain text variable `AccountId` and `ProjectB` has the
plain text variable `AccountId` and the account variable `Account`, all of the same value. -/
def accountSpace : Client :=
  { emptySpace with
    Projects_GetAll := .ok [projectA, projectB]
    Variables_GetAll := fun projectID =>
      if projectID = "Projects-1" then .ok { Variables := [accountIdVariable] }
      else if projectID = "Projects-2" then
        .ok { Variables := [accountIdVariable, accountVariable] }
      else .ok { Variables := [] } }

/-- A variable whose own value contains its name. -/
def databaseVariable : Variable :=
  { Name := "Database", Value := "OrdersDatabase", Type_ := "String" }

/-- A space with the project `P`, which has no step and no runbook, and whose only variable
is `Database`. -/
def selfNamedSpace : Client :=
  { emptySpace with
    GetProjects := fun _ _ => .ok [projectP]
    Variables_GetAll := fun _ => .ok { Variables := [databaseVariable] } }

/-- The variable `Port`, which nothing mentions. -/
def portVariable : Variable :=
  { Name := "Port", Value := "8080", Type_ := "String" }

/-- The variable `OctopusPrintVariables`, which nothing mentions. -/
def printVariable : Variable :=
  { Name := "OctopusPrintVariables", Value := "False", Type_ := "String" }

/-- A sample of the function `checks.IgnoreVariable`: it ignores `OctopusPrintVariables`. -/
def ignorePrintVariable (name : String) : Bool :=
  name == "OctopusPrintVariables"

/-- A space with the project `P`, which has no step and no runbook, and the variables
`OctopusPrintVariables` and `Port`. -/
def portSpace : Client :=
  { emptySpace with
    GetProjects := fun _ _ => .ok [projectP]
    Variables_GetAll := fun _ => .ok { Variables := [printVariable, portVariable] } }

/-- A stand-in for the regular-expression package at concrete inputs: the expression `(`
does not compile; every other expression compiles and matches the texts that contain it
literally. -/
def parenRegexp : RegexpPackage :=
  { Regexp := String
    Compile := fun expr =>
      if expr = "(" then .error (errorsNew "error parsing regexp: missing closing )")
      else .ok expr
    Match := fun expr text => stringsContains text expr }

/-- A space with the project `P`, whose deployment process cannot be fetched: the fetch fails
with the error `err`. -/
def failingProcessSpace (err : GoError) : Client :=
  { emptySpace with
    Projects_GetAll := .ok [{ projectP with DeploymentProcessID := "deploymentprocess-Projects-1" }]
    DeploymentProcesses_GetByID := fun _ => .error err }

/-- Modelled from the spec: the class of permission-denied errors, "403-class errors"
(package `checks`, not among the sources): an API error of status 403. -/
def isPermissionDenied : GoError → Bool
  | .apiError statusCode _ => statusCode == 403
  | .other _ => false

/-- Modelled from the spec: the permissive error handler
`checks.OctopusClientPermissiveErrorHandler` (package `checks`, not among the sources). A
permission-denied error is "classified as severity `Permission`" and built into a Result
for the check and category given, and the caller "should continue to the next item"; any
other error is propagated and aborts. The text of the Result is not specified and is the
parameter `describe`. -/
def permissiveHandler (describe : GoError → String) : OctopusClientErrorHandler :=
  { HandleError := fun id category err =>
      if isPermissionDenied err then
        (some (NewOctopusCheckResultImpl (describe err) id "" .Permission category), none)
      else (none, some err)
    ShouldContinue := isPermissionDenied }

/-- A space whose default project group holds `n` projects. -/
def defaultGroupSpace (n : Nat) : Client :=
  { emptySpace with
    ProjectGroups_GetByName := fun _ =>
      .ok (some { ID := "ProjectGroups-1", Name := "Default Project Group" })
    ProjectGroups_GetProjects := fun _ => .ok (List.replicate n projectP) }

/-- A space where the fetch of the default project group is denied. -/
def deniedGroupSpace : Client :=
  { emptySpace with
    ProjectGroups_GetByName := fun _ => .error (.apiError 403 "You do not have permission") }

/-- A space where the default project group is fetched and the fetch of its projects is
denied. -/
def deniedProjectsSpace : Client :=
  { emptySpace with
    ProjectGroups_GetByName := fun _ =>
      .ok (some { ID := "ProjectGroups-1", Name := "Default Project Group" })
    ProjectGroups_GetProjects := fun _ => .error (.apiError 403 "You do not have permission") }

/-- The targets the insecure-target check is said to list: the endpoint is a Kubernetes
endpoint, and it skips TLS verification or the text of its cluster URL starts with the
scheme `http://`. -/
def isInsecureKubernetesTarget (t : DeploymentTarget) : Bool :=
  match t.Endpoint with
  | .kubernetes e =>
    e.SkipTLSVerification ||
      (match e.ClusterURL with
        | some url => stringsHasPrefix url "http://"
        | none => false)
  | .otherKind _ => false

/-- Four targets: a Kubernetes target that skips TLS verification, one on plain HTTP, one on
HTTPS, and an SSH target. -/
def sampleTargets : List DeploymentTarget :=
  [{ Name := "k8s-skip", Endpoint := .kubernetes
      { SkipTLSVerification := true, ClusterURL := some "https://10.0.0.1" } },
   { Name := "k8s-http", Endpoint := .kubernetes
      { SkipTLSVerification := false, ClusterURL := some "http://10.0.0.2" } },
   { Name := "k8s-https", Endpoint := .kubernetes
      { SkipTLSVerification := false, ClusterURL := some "https://10.0.0.3" } },
   { Name := "ssh", Endpoint := .otherKind "Ssh" }]

/-- A space with the four sample targets. -/
def sampleTargetsSpace : Client :=
  { emptySpace with Machines_GetAll := .ok sampleTargets }

/-- A project `Q` whose deployment process is not found. -/
def projectWithoutProcess : Project :=
  { ID := "Projects-2", Name := "Q", DeploymentProcessID := "deploymentprocess-Projects-2",
    LifecycleID := "Lifecycles-2", Links := [] }

/-- A project `R` with a deployment process of twenty steps. -/
def projectWithTwentySteps : Project :=
  { ID := "Projects-3", Name := "R", DeploymentProcessID := "deploymentprocess-Projects-3",
    LifecycleID := "Lifecycles-2", Links := [] }

/-- A step with one action on the container image `nginx`. -/
def nginxStep : DeploymentStep :=
  { Name := "Deploy",
    Actions := [{ Name := "Run", Container := some { Image := "nginx" }, Properties := [],
                  Packages := [] }] }

/-- A space with three projects: `P` has an empty deployment-process id, the deployment
process of `Q` is not found, and the one of `R` has twenty steps, each with one action on the
container image `nginx`. -/
def missingProcessSpace : Client :=
  { emptySpace with
    Projects_GetAll := .ok [projectP, projectWithoutProcess, projectWithTwentySteps]
    GetProjectsWithFilter := fun _ _ _ _ =>
      .ok [projectP, projectWithoutProcess, projectWithTwentySteps]
    DeploymentProcesses_GetByID := fun id =>
      if id = "deploymentprocess-Projects-3" then
        .ok (some { Steps := List.replicate 20 nginxStep })
      else .error (.apiError 404 "Resource is not found") }

/-- C1: with a nil client, `Execute` of each of the eight checks returns no Result and the
non-nil error `octoclient is nil`, and makes no data-access call, for every configuration
(nil included), every error handler, and every value of the package-level parameters. -/
theorem nil_client_is_an_error (SpecialVars : List String) (IgnoreVariable : String → Bool)
    (R : RegexpPackage) (errorHandler : OctopusClientErrorHandler)
    (config : Option OctolintConfig) (concurrency : Int) :
    let failed : Run :=
      { accesses := [], returned := .values none (some (errorsNew "octoclient is nil")) }
    OctopusProjectContainerImageRegex.Execute R
        { client := none, errorHandler := errorHandler, config := config } concurrency = failed ∧
      OctopusDefaultProjectGroupCountCheck.Execute
        { client := none, errorHandler := errorHandler, config := config } = failed ∧
      OctopusDuplicatedVariablesCheck.Execute SpecialVars
        { client := none, errorHandler := errorHandler } = failed ∧
      OctopusEnvironmentCountCheck.Execute
        { client := none, errorHandler := errorHandler, config := config } = failed ∧
      OctopusProjectSpecificEnvironmentCheck.Execute
        { client := none, errorHandler := errorHandler, config := config } = failed ∧
      OctopusProjectTooManyStepsCheck.Execute
        { client := none, errorHandler := errorHandler, config := config } = failed ∧
      OctopusUnusedVariablesCheck.Execute IgnoreVariable
        { client := none, errorHandler := errorHandler, config := config } = failed ∧
      OctopusInsecureK8sCheck.Execute
        { client := none, errorHandler := errorHandler, config := config } = failed := by
  intro failed
  exact ⟨rfl, rfl, rfl, rfl, rfl, rfl, rfl, rfl⟩

/-! ### The Go library -/

/-- The test `slices.Index(s, v) != -1` is membership. -/
theorem slicesIndex_ne_iff (s : List String) (v : String) :
    (slicesIndex s v != -1) = true ↔ v ∈ s := by
  unfold slicesIndex
  cases h : s.indexOf? v with
  | none =>
    have : v ∉ s := by
      intro hm
      rw [List.indexOf?, List.findIdx?_eq_none_iff] at h
      simpa using h v hm
    simp [this]
  | some i =>
    have : v ∈ s := by
      rw [List.indexOf?, List.findIdx?_eq_some_iff_getElem] at h
      obtain ⟨hi, hv, _⟩ := h
      have := List.getElem_mem hi
      simp at hv
      rw [hv] at this
      exact this
    simp [this]

/-! ### The project-specific-environments check: counting -/

namespace OctopusProjectSpecificEnvironmentCheck

/-- A map read of the first key. -/
theorem lookup_cons_self {β : Type} (k : String) (v : β) (rest : List (String × β)) :
    List.lookup k ((k, v) :: rest) = some v := by
  simp [List.lookup]

/-- A map read of a key other than the first. -/
theorem lookup_cons_of_ne {β : Type} {e k : String} (h : e ≠ k) (v : β)
    (rest : List (String × β)) :
    List.lookup e ((k, v) :: rest) = List.lookup e rest := by
  have hb : (e == k) = false := by simpa using h
  simp [List.lookup, hb]

/-- A map read after `addProject`: the name is appended under `env`, other keys keep their
value. -/
theorem lookup_addProject (m : List (String × List String)) (env name e : String) :
    (addProject m env name).lookup e =
      if e = env then some ((m.lookup env).getD [] ++ [name]) else m.lookup e := by
  induction m with
  | nil =>
    by_cases h : e = env
    · subst h; simp [addProject, lookup_cons_self]
    · simp [addProject, lookup_cons_of_ne h, h]
  | cons kv rest ih =>
    obtain ⟨k, v⟩ := kv
    by_cases hk : k = env
    · subst hk
      by_cases h : e = k
      · subst h; simp [addProject, lookup_cons_self]
      · simp [addProject, lookup_cons_of_ne h, h]
    · by_cases h : e = env
      · subst h
        have hne : e ≠ k := fun h => hk h.symm
        simp [addProject, hk, lookup_cons_of_ne hne, ih]
      · by_cases hek : e = k
        · subst hek; simp [addProject, hk, lookup_cons_self, h]
        · simp [addProject, hk, lookup_cons_of_ne hek, ih, h]


/-- The keys after `addProject`: `env` is added at the end when it is new. -/
theorem keys_addProject (m : List (String × List String)) (env name : String) :
    (addProject m env name).map Prod.fst =
      if env ∈ m.map Prod.fst then m.map Prod.fst else m.map Prod.fst ++ [env] := by
  induction m with
  | nil => simp [addProject]
  | cons kv rest ih =>
    obtain ⟨k, v⟩ := kv
    by_cases hk : k = env
    · subst hk; simp [addProject]
    · have hne : ¬ env = k := fun h => hk h.symm
      by_cases hin : env ∈ rest.map Prod.fst
      · simp [addProject, hk, ih, hin]
      · simp [addProject, hk, ih, hin, hne]

/-- `addProject` keeps the keys distinct. -/
theorem nodup_keys_addProject (m : List (String × List String)) (env name : String)
    (h : (m.map Prod.fst).Nodup) : ((addProject m env name).map Prod.fst).Nodup := by
  rw [keys_addProject]
  by_cases hin : env ∈ m.map Prod.fst
  · simpa [hin] using h
  · simp only [hin, if_false]
    rw [List.nodup_append]
    refine ⟨h, List.nodup_singleton _, ?_⟩
    intro a ha hb
    simp at hb
    subst hb
    exact hin ha

/-- The state after the loop that counts one project, started from any state. -/
theorem countStep_foldl (p : Project) (envs : List String) :
    ∀ (m : List (String × List String)) (processed : List String),
      (∀ e, ((envs.foldl (countStep p) (m, processed)).1).lookup e =
        if e ∈ envs ∧ e ∉ processed then some ((m.lookup e).getD [] ++ [p.Name])
        else m.lookup e) ∧
      ((m.map Prod.fst).Nodup →
        (((envs.foldl (countStep p) (m, processed)).1).map Prod.fst).Nodup) := by
  induction envs with
  | nil => intro m processed; simp
  | cons env rest ih =>
    intro m processed
    by_cases hin : env ∈ processed
    · have hstep : countStep p (m, processed) env = (m, processed) := by
        simp [countStep, (slicesIndex_ne_iff processed env).2 hin]
      rw [List.foldl_cons, hstep]
      refine ⟨fun e => ?_, (ih m processed).2⟩
      rw [(ih m processed).1 e]
      by_cases he : e = env
      · subst he; simp [hin]
      · simp [he]
    · have hidx : (slicesIndex processed env != -1) = false := by
        cases hb : (slicesIndex processed env != -1)
        · rfl
        · exact absurd ((slicesIndex_ne_iff processed env).1 hb) hin
      have hstep : countStep p (m, processed) env =
          (addProject m env p.Name, processed ++ [env]) := by
        simp [countStep, hidx]
      rw [List.foldl_cons, hstep]
      refine ⟨fun e => ?_, fun hn => (ih _ _).2 (nodup_keys_addProject m env p.Name hn)⟩
      rw [(ih _ _).1 e, lookup_addProject]
      by_cases he : e = env
      · subst he; simp [hin]
      · simp [he]


/-- A map read after the loop over the projects, started from any map: the names of the
projects that reach `e` are appended, in the order of the projects. -/
theorem lookup_countProjects_foldl (reach : List (Project × List String)) (e : String) :
    ∀ m : List (String × List String),
      (reach.foldl (fun environmentCount pe => countProject environmentCount pe.1 pe.2) m).lookup e =
        if reachingProjects reach e = [] then m.lookup e
        else some ((m.lookup e).getD [] ++ reachingProjects reach e) := by
  induction reach with
  | nil => intro m; simp [reachingProjects]
  | cons pe rest ih =>
    intro m
    rw [List.foldl_cons, ih]
    have hl := (countStep_foldl pe.1 pe.2 m []).1 e
    simp only [List.not_mem_nil, not_false_eq_true, and_true] at hl
    unfold countProject
    rw [hl]
    by_cases hin : e ∈ pe.2
    · have hr : reachingProjects (pe :: rest) e = pe.1.Name :: reachingProjects rest e := by
        simp [reachingProjects, List.filter_cons, hin]
      rw [hr]
      by_cases hrest : reachingProjects rest e = []
      · simp [hin, hrest]
      · simp [hin, hrest]
    · have hr : reachingProjects (pe :: rest) e = reachingProjects rest e := by
        simp [reachingProjects, List.filter_cons, hin]
      rw [hr]
      simp [hin]

/-- The loop over the projects keeps the keys distinct. -/
theorem nodup_keys_countProjects_foldl (reach : List (Project × List String)) :
    ∀ m : List (String × List String), (m.map Prod.fst).Nodup →
      ((reach.foldl (fun environmentCount pe => countProject environmentCount pe.1 pe.2) m).map
        Prod.fst).Nodup := by
  induction reach with
  | nil => intro m h; simpa using h
  | cons pe rest ih =>
    intro m h
    rw [List.foldl_cons]
    exact ih _ ((countStep_foldl pe.1 pe.2 m []).2 h)

/-- In a map with distinct keys, an entry is in the map exactly when the read of its key
returns its value. -/
theorem mem_iff_lookup {β : Type} (m : List (String × β)) (h : (m.map Prod.fst).Nodup)
    (k : String) (v : β) : (k, v) ∈ m ↔ m.lookup k = some v := by
  induction m with
  | nil => simp
  | cons kv rest ih =>
    obtain ⟨k', v'⟩ := kv
    simp only [List.map_cons, List.nodup_cons] at h
    by_cases hk : k = k'
    · subst hk
      rw [lookup_cons_self]
      constructor
      · intro hm
        rcases List.mem_cons.1 hm with heq | hm
        · simp at heq; simp [heq]
        · exact absurd (List.mem_map_of_mem Prod.fst hm) h.1
      · intro hv; simp at hv; simp [hv]
    · rw [lookup_cons_of_ne hk, ← ih h.2]
      simp [hk]

/-- An environment is in `singleProjectEnvironments` with a project exactly when its slice
in `environmentCount` is that project alone. -/
theorem mem_singleProjectEnvironments (m : List (String × List String)) (env name : String) :
    (env, name) ∈ singleProjectEnvironments m ↔ (env, [name]) ∈ m := by
  unfold singleProjectEnvironments
  rw [List.mem_filterMap]
  constructor
  · rintro ⟨⟨k, v⟩, hm, hf⟩
    match v, hm, hf with
    | [x], hm, hf => simp at hf; obtain ⟨rfl, rfl⟩ := hf; exact hm
    | [], _, hf => simp at hf
    | _ :: _ :: _, _, hf => simp at hf
  · intro hm
    exact ⟨(env, [name]), hm, rfl⟩

/-- The keys of `singleProjectEnvironments` are among the keys of `environmentCount`, in the
same order. -/
theorem keys_singleProjectEnvironments_sublist (m : List (String × List String)) :
    ((singleProjectEnvironments m).map Prod.fst).Sublist (m.map Prod.fst) := by
  induction m with
  | nil => simp [singleProjectEnvironments]
  | cons kv rest ih =>
    obtain ⟨k, v⟩ := kv
    unfold singleProjectEnvironments at ih ⊢
    match v with
    | [x] => simpa [List.filterMap_cons] using ih
    | [] => simpa [List.filterMap_cons] using ih.trans (List.sublist_cons_self _ _)
    | _ :: _ :: _ => simpa [List.filterMap_cons] using ih.trans (List.sublist_cons_self _ _)

/-- When every flagged id is the id of a fetched environment, the lines are built without
a panic, one per flagged environment. -/
theorem messages_of_found (allEnvironments : List Environment) (single : List (String × String))
    (h : ∀ x ∈ single, getEnvironmentById allEnvironments x.1 ≠ none) :
    messages allEnvironments single =
      .value (single.map fun x => environmentName allEnvironments x.1 ++ " (" ++ x.2 ++ ")") := by
  induction single with
  | nil => rfl
  | cons x rest ih =>
    obtain ⟨env, envProject⟩ := x
    have hx := h (env, envProject) (List.mem_cons_self _ _)
    have hrest := ih fun y hy => h y (List.mem_cons_of_mem _ hy)
    cases hg : getEnvironmentById allEnvironments env with
    | none => exact absurd hg hx
    | some environment =>
      simp [messages, hg, hrest, Call.map, environmentName]

end OctopusProjectSpecificEnvironmentCheck

/-! ### The project-specific-environments check: claims -/

namespace OctopusProjectSpecificEnvironmentCheck

/-- C5: the channel of `P` uses the default lifecycle, which has no phase, while the own
lifecycle of `P` targets `Dev` only. The slice built for `P` holds `Dev` alone, `Prod` is not
in it, and `Execute` warns about `Dev (P)` only. -/
theorem channel_default_lifecycle_is_not_expanded :
    getLifecycleById devLifecycleAndDefault "Lifecycles-2" =
        some { ID := "Lifecycles-2", Phases := [] } ∧
      projectEnvironments devLifecycleAndDefault devAndProd
        [{ ProjectID := "Projects-1", LifecycleID := "Lifecycles-2" }] projectP =
          ["Environments-1"] ∧
      Execute { client := some channelOverrideSpace, errorHandler := strictHandler,
                config := some zeroConfig } =
        { accesses := [.GetProjects, .LifecyclesGetAll, .EnvironmentsGetAll, .ChannelsGetAll],
          returned := .values
            (some (NewOctopusCheckResultImpl
              "The following environments are used by a single project:\nDev (P)"
              "OctoLintProjectSpecificEnvs" "" .Warning .Organization)) none } := by
  decide

/-- C6: a project whose lifecycle id resolves to a lifecycle without phases has the id of
every fetched environment in its slice `projectEnvironments`, and, when it is one of the
projects, its name is counted under every such id in the map `environmentCount`. -/
theorem default_lifecycle_reaches_every_environment (allLifecycles : List Lifecycle)
    (allEnvironments : List Environment) (allChannels : List Channel)
    (projects : List Project) (p : Project) (lifecycle : Lifecycle)
    (hp : p ∈ projects)
    (hl : getLifecycleById allLifecycles p.LifecycleID = some lifecycle)
    (hz : lifecycle.Phases = []) :
    ∀ e ∈ allEnvironments,
      e.ID ∈ projectEnvironments allLifecycles allEnvironments allChannels p ∧
      ∃ names,
        (e.ID, names) ∈ countProjects (projects.map fun q =>
          (q, projectEnvironments allLifecycles allEnvironments allChannels q)) ∧
        p.Name ∈ names := by
  intro e he
  have hmem : e.ID ∈ projectEnvironments allLifecycles allEnvironments allChannels p := by
    unfold projectEnvironments
    simp only [hl, hz]
    apply List.mem_append_left
    apply List.mem_append_left
    simpa [getAllEnvironmentIds] using ⟨e, he, rfl⟩
  refine ⟨hmem, ?_⟩
  let reach := projects.map fun q =>
    (q, projectEnvironments allLifecycles allEnvironments allChannels q)
  have hname : p.Name ∈ reachingProjects reach e.ID := by
    unfold reachingProjects
    refine List.mem_map.2 ⟨(p, projectEnvironments allLifecycles allEnvironments allChannels p),
      ?_, rfl⟩
    rw [List.mem_filter]
    exact ⟨List.mem_map.2 ⟨p, hp, rfl⟩, by simpa using hmem⟩
  have hne : reachingProjects reach e.ID ≠ [] := List.ne_nil_of_mem hname
  have hlook := lookup_countProjects_foldl reach e.ID []
  simp only [hne, if_false, List.lookup_nil, Option.getD_none, List.nil_append] at hlook
  have hnodup := nodup_keys_countProjects_foldl reach [] (by simp)
  exact ⟨reachingProjects reach e.ID,
    (mem_iff_lookup _ hnodup _ _).2 hlook, hname⟩

/-- Witness of C6: the project `Q` on the default lifecycle is counted under `Dev`. -/
theorem default_lifecycle_reaches_every_environment_witness :
    projectQ ∈ [projectP, projectQ] ∧
      getLifecycleById devLifecycleAndDefault projectQ.LifecycleID =
        some { ID := "Lifecycles-2", Phases := [] } ∧
      ∀ e ∈ devAndProd,
        e.ID ∈ projectEnvironments devLifecycleAndDefault devAndProd [] projectQ ∧
        ∃ names,
          (e.ID, names) ∈ countProjects ([projectP, projectQ].map fun q =>
            (q, projectEnvironments devLifecycleAndDefault devAndProd [] q)) ∧
          projectQ.Name ∈ names :=
  ⟨by decide, by decide,
    default_lifecycle_reaches_every_environment devLifecycleAndDefault devAndProd []
      [projectP, projectQ] projectQ { ID := "Lifecycles-2", Phases := [] }
      (by decide) (by decide) rfl⟩

/-- C7: the lifecycle of `P`, the only project, targets the id `Environments-9`, which no
fetched environment has. Exactly one project reaches that id and it is flagged; the lookup
`getEnvironmentById` returns nil for it, the line of the warning reads `.Name` of the nil
result, and `Execute` panics after its four fetches: it returns neither a Warning nor any
other Result, and no error. -/
theorem flagged_unknown_environment_panics :
    reachingProjects [(projectP, ["Environments-9"])] "Environments-9" = ["P"] ∧
      singleProjectEnvironments (countProjects [(projectP, ["Environments-9"])]) =
        [("Environments-9", "P")] ∧
      getEnvironmentById devAndProd "Environments-9" = none ∧
      Execute { client := some danglingTargetSpace, errorHandler := strictHandler,
                config := some zeroConfig } =
        { accesses := [.GetProjects, .LifecyclesGetAll, .EnvironmentsGetAll, .ChannelsGetAll],
          returned := .panic } := by
  decide

/-- The counting and the flagging of the check, whatever the order in which the maps are
ranged over: given the slice of environments of each project, an environment is flagged with
the project `name` exactly when the projects of the list that reach it are `name` alone, a
project counting once however often the id occurs in its slice; no environment is flagged
twice. When none is flagged the result is Ok. When at least one is flagged and every flagged
id is the id of a fetched environment, the result is a Warning whose lines are, in some
order, one line `EnvironmentName (ProjectName)` per flagged environment. -/
theorem single_project_environments_counted (o : OctopusProjectSpecificEnvironmentCheck)
    (allEnvironments : List Environment) (reach : List (Project × List String)) :
    (∀ env name, (env, name) ∈ singleProjectEnvironments (countProjects reach) ↔
        reachingProjects reach env = [name]) ∧
      ((singleProjectEnvironments (countProjects reach)).map Prod.fst).Nodup ∧
      (singleProjectEnvironments (countProjects reach) = [] →
        o.report allEnvironments (singleProjectEnvironments (countProjects reach)) =
          Run.ret (some (NewOctopusCheckResultImpl "There are no single project environments"
            o.Id "" .Ok .Organization), none)) ∧
      (singleProjectEnvironments (countProjects reach) ≠ [] →
        (∀ x ∈ singleProjectEnvironments (countProjects reach),
          getEnvironmentById allEnvironments x.1 ≠ none) →
        ∃ lines : List String,
          lines.Perm ((singleProjectEnvironments (countProjects reach)).map fun x =>
            environmentName allEnvironments x.1 ++ " (" ++ x.2 ++ ")") ∧
          o.report allEnvironments (singleProjectEnvironments (countProjects reach)) =
            Run.ret (some (NewOctopusCheckResultImpl
              ("The following environments are used by a single project:\n" ++
                stringsJoin lines "\n")
              o.Id "" .Warning .Organization), none)) := by
  have hnodup : ((countProjects reach).map Prod.fst).Nodup :=
    nodup_keys_countProjects_foldl reach [] (by simp)
  refine ⟨fun env name => ?_, ?_, ?_, ?_⟩
  · rw [mem_singleProjectEnvironments, mem_iff_lookup _ hnodup]
    unfold countProjects
    rw [lookup_countProjects_foldl]
    by_cases hr : reachingProjects reach env = []
    · simp [hr]
    · simp [hr]
  · exact (keys_singleProjectEnvironments_sublist _).nodup hnodup
  · intro hs
    rw [hs]
    rfl
  · intro hs hfound
    have hlen : (singleProjectEnvironments (countProjects reach)).length > 0 :=
      List.length_pos.2 hs
    refine ⟨_, List.Perm.refl _, ?_⟩
    unfold report
    rw [if_pos hlen, messages_of_found allEnvironments _ hfound]

/-- An instance of the counting: `P` reaches `Dev` (named twice in its slice), `Q` and a
second project of the same name reach `Prod`; `Dev` alone is flagged. -/
theorem single_project_environments_counted_example :
    ∃ lines : List String,
      lines.Perm ["Dev (P)"] ∧
      report { client := none, errorHandler := strictHandler, config := none } devAndProd
          (singleProjectEnvironments (countProjects
            [(projectP, ["Environments-1", "Environments-1"]), (projectQ, ["Environments-2"]),
             (projectQ, ["Environments-2"])])) =
        Run.ret (some (NewOctopusCheckResultImpl
          ("The following environments are used by a single project:\n" ++
            stringsJoin lines "\n")
          "OctoLintProjectSpecificEnvs" "" .Warning .Organization), none) :=
  (single_project_environments_counted
    { client := none, errorHandler := strictHandler, config := none } devAndProd
    [(projectP, ["Environments-1", "Environments-1"]), (projectQ, ["Environments-2"]),
     (projectQ, ["Environments-2"])]).2.2.2 (by decide) (by decide)

end OctopusProjectSpecificEnvironmentCheck

/-! ### The container-image check: claims -/

namespace OctopusProjectContainerImageRegex

/-- A text made of white space only is trimmed to the empty string. -/
theorem stringsTrimSpace_of_blank (s : String) (h : s.data.all unicodeIsSpace = true) :
    stringsTrimSpace s = "" := by
  have hd : s.data.dropWhile unicodeIsSpace = [] := by
    rw [List.dropWhile_eq_nil_iff]
    simpa using h
  simp [stringsTrimSpace, hd]

/-- C10: when the configured container-image regex is empty or made of white space only and
the client is not nil, `Execute` returns `nil, nil` and has made no data-access call. -/
theorem blank_regex_is_not_applicable (R : RegexpPackage)
    (o : OctopusProjectContainerImageRegex) (client : Client) (config : OctolintConfig)
    (concurrency : Int) (hclient : o.client = some client) (hconfig : o.config = some config)
    (hblank : config.ContainerImageRegex.data.all unicodeIsSpace = true) :
    Execute R o concurrency = { accesses := [], returned := .values none none } := by
  unfold Execute
  simp only [hclient, hconfig, stringsTrimSpace_of_blank _ hblank]
  rfl

/-- Witness of C10: a regex of two blanks and a tab, in a space that has a project. -/
theorem blank_regex_is_not_applicable_witness :
    Execute literalRegexp
        { client := some oneProjectSpace, errorHandler := strictHandler,
          config := some { zeroConfig with ContainerImageRegex := "  \t" } } 4 =
      { accesses := [], returned := .values none none } :=
  blank_regex_is_not_applicable literalRegexp _ oneProjectSpace
    { zeroConfig with ContainerImageRegex := "  \t" } 4 rfl rfl (by decide)

end OctopusProjectContainerImageRegex

/-! ### The duplicated-variables check: the entries collected -/

namespace OctopusDuplicatedVariablesCheck

/-- Dropping the first places of an enumeration enumerates the rest from there on. -/
theorem drop_enumFrom {α : Type} (l : List α) :
    ∀ k n : Nat, (l.enumFrom k).drop n = (l.drop n).enumFrom (k + n) := by
  induction l with
  | nil => intro k n; simp
  | cons x rest ih =>
    intro k n
    cases n with
    | zero => simp
    | succ n =>
      simp only [List.enumFrom_cons, List.drop_succ_cons]
      rw [ih (k + 1) n]
      congr 1
      omega

/-- The places after `i` of an enumerated list. -/
theorem mem_drop_enum {α : Type} (l : List α) (i j : Nat) (y : α) :
    (j, y) ∈ l.enum.drop (i + 1) ↔ i < j ∧ l[j]? = some y := by
  rw [List.enum, drop_enumFrom, List.mk_mem_enumFrom_iff_le_and_getElem?_sub,
    List.getElem?_drop]
  constructor
  · rintro ⟨hle, hy⟩
    have hj : i + 1 + (j - (0 + (i + 1))) = j := by omega
    rw [hj] at hy
    exact ⟨by omega, hy⟩
  · rintro ⟨hlt, hy⟩
    have hj : i + 1 + (j - (0 + (i + 1))) = j := by omega
    rw [hj]
    exact ⟨by omega, hy⟩

/-- The entries the four loops collect: those of a project at a place `i`, a variable of it
that is not ignored, a project at a later place `j`, and any variable of that project with
the same value. The variable of the later project is not tested with
`shouldIgnoreVariable`. -/
theorem mem_duplicateVars (SpecialVars : List String) (projects : List Project)
    (projectVars : List (Nat × VariableSet)) (entry : projectVar) :
    entry ∈ duplicateVars SpecialVars projects projectVars ↔
      ∃ i j, i < j ∧ projects[i]? = some entry.project1 ∧ projects[j]? = some entry.project2 ∧
        entry.variable1 ∈ (lookupVars projectVars i).Variables ∧
        entry.variable2 ∈ (lookupVars projectVars j).Variables ∧
        shouldIgnoreVariable SpecialVars entry.variable1 = false ∧
        entry.variable1.Value = entry.variable2.Value := by
  unfold duplicateVars
  simp only [List.mem_flatMap]
  constructor
  · rintro ⟨⟨i, p1⟩, hp1, v1, hv1, hrest⟩
    cases hig : shouldIgnoreVariable SpecialVars v1 with
    | true => simp [hig] at hrest
    | false =>
      simp only [hig, Bool.false_eq_true, if_false, List.mem_flatMap] at hrest
      obtain ⟨⟨j, p2⟩, hp2, v2, hv2, hentry⟩ := hrest
      by_cases hval : v1.Value = v2.Value
      · simp only [hval, if_true, List.mem_singleton] at hentry
        subst hentry
        rw [mem_drop_enum] at hp2
        exact ⟨i, j, hp2.1, List.mk_mem_enum_iff_getElem?.1 hp1, hp2.2, hv1, hv2, hig, hval⟩
      · simp [hval] at hentry
  · rintro ⟨i, j, hlt, hp1, hp2, hv1, hv2, hig, hval⟩
    refine ⟨(i, entry.project1), List.mk_mem_enum_iff_getElem?.2 hp1, entry.variable1, hv1, ?_⟩
    simp only [hig, Bool.false_eq_true, if_false, List.mem_flatMap]
    refine ⟨(j, entry.project2), (mem_drop_enum _ _ _ _).2 ⟨hlt, hp2⟩, entry.variable2, hv2, ?_⟩
    simp [hval]

end OctopusDuplicatedVariablesCheck

namespace OctopusDuplicatedVariablesCheck

/-- In every entry collected, the first variable is not ignored, and the value of the second
variable, equal to that of the first, is not empty, is none of `true`, `false`, `yes`, `no`
in any case, and is not accepted by `strconv.Atoi`. -/
theorem entry_values_not_ignorable (SpecialVars : List String) (projects : List Project)
    (projectVars : List (Nat × VariableSet)) (entry : projectVar)
    (h : entry ∈ duplicateVars SpecialVars projects projectVars) :
    shouldIgnoreVariable SpecialVars entry.variable1 = false ∧
      entry.variable2.Value ≠ "" ∧
      stringsToLower entry.variable2.Value ≠ "true" ∧
      stringsToLower entry.variable2.Value ≠ "false" ∧
      stringsToLower entry.variable2.Value ≠ "yes" ∧
      stringsToLower entry.variable2.Value ≠ "no" ∧
      strconvAtoi entry.variable2.Value = none := by
  obtain ⟨i, j, _, _, _, _, _, hig, hval⟩ := (mem_duplicateVars _ _ _ _).1 h
  refine ⟨hig, ?_⟩
  rw [← hval]
  unfold shouldIgnoreVariable at hig
  simp at hig
  obtain ⟨⟨⟨⟨⟨⟨⟨h1, _⟩, _⟩, h4⟩, h5⟩, h6⟩, h7⟩, h8⟩ := hig
  exact ⟨h1, h4, h5, h6, h7, h8⟩

end OctopusDuplicatedVariablesCheck

/-! ### The duplicated-variables check: claims -/

namespace OctopusDuplicatedVariablesCheck

/-- A variable whose type is not `String` is ignored, whatever the exclusion list. -/
theorem shouldIgnoreVariable_of_type (SpecialVars : List String) (v : Variable)
    (h : v.Type_ ≠ "String") : shouldIgnoreVariable SpecialVars v = true := by
  have : (v.Type_ != "String") = true := by simpa using h
  simp [shouldIgnoreVariable, this]

/-- The exclusion list matters to `shouldIgnoreVariable` only through the name of the
variable. -/
theorem shouldIgnoreVariable_of_not_mem (SpecialVars : List String) (v : Variable)
    (h : v.Name ∉ SpecialVars) :
    shouldIgnoreVariable SpecialVars v = shouldIgnoreVariable [] v := by
  have hidx : (slicesIndex SpecialVars v.Name != -1) = false := by
    cases hb : (slicesIndex SpecialVars v.Name != -1)
    · rfl
    · exact absurd ((slicesIndex_ne_iff SpecialVars _).1 hb) h
  have hnil : (slicesIndex [] v.Name != -1) = false := by
    cases hb : (slicesIndex [] v.Name != -1)
    · rfl
    · exact absurd ((slicesIndex_ne_iff [] _).1 hb) (List.not_mem_nil _)
  unfold shouldIgnoreVariable
  rw [hidx, hnil]

/-- The plain text variable `PoolId` is not ignored when its name is not excluded. -/
theorem shouldIgnoreVariable_poolId (SpecialVars : List String) (h : "PoolId" ∉ SpecialVars) :
    shouldIgnoreVariable SpecialVars poolIdVariable = false := by
  rw [shouldIgnoreVariable_of_not_mem SpecialVars poolIdVariable h]
  decide

/-- The entries collected for `ProjectA`, then `ProjectB`. -/
theorem duplicateVars_pool (SpecialVars : List String) (h : "PoolId" ∉ SpecialVars) :
    duplicateVars SpecialVars [projectA, projectB]
        [(0, { Variables := [poolIdVariable] }), (1, { Variables := [poolVariable] })] =
      [{ project1 := projectA, variable1 := poolIdVariable, project2 := projectB,
         variable2 := poolVariable }] := by
  have h1 := shouldIgnoreVariable_poolId SpecialVars h
  have h2 := shouldIgnoreVariable_of_type SpecialVars poolVariable (by decide)
  simp [duplicateVars, lookupVars, List.enum, List.enumFrom, List.lookup, h1, h2]
  decide

/-- The entries collected for `ProjectB`, then `ProjectA`: none. -/
theorem duplicateVars_pool_swapped (SpecialVars : List String) :
    duplicateVars SpecialVars [projectB, projectA]
        [(0, { Variables := [poolVariable] }), (1, { Variables := [poolIdVariable] })] = [] := by
  have h2 := shouldIgnoreVariable_of_type SpecialVars poolVariable (by decide)
  simp [duplicateVars, lookupVars, List.enum, List.enumFrom, List.lookup, h2]

/-- C2: `ProjectA` has the plain text variable `PoolId`, `ProjectB` has the variable `Pool`
of the type `WorkerPool` with the same value. `Pool` is a variable the check ignores, and yet
it is the second variable of the entry the check collects and of the line it reports. -/
theorem ignored_second_variable_is_reported (SpecialVars : List String)
    (h : "PoolId" ∉ SpecialVars) :
    shouldIgnoreVariable SpecialVars poolVariable = true ∧
      Execute SpecialVars
          { client := some (poolSpace projectA projectB), errorHandler := strictHandler } =
        { accesses := [.ProjectsGetAll, .VariablesGetAll "Projects-1",
            .VariablesGetAll "Projects-2"],
          returned := .values
            (some (NewOctopusCheckResultImpl
              "The following variables are duplicated between projects. Consider moving these into library variable sets:\nProjectA/PoolId == ProjectB/Pool"
              "OctoLintDuplicatedVariables" "" .Warning .Organization)) none } := by
  refine ⟨shouldIgnoreVariable_of_type SpecialVars poolVariable (by decide), ?_⟩
  have hfetch : fetchProjectVars (poolSpace projectA projectB) strictHandler
      [projectA, projectB].enum =
        ([.VariablesGetAll "Projects-1", .VariablesGetAll "Projects-2"],
          .ok [(0, { Variables := [poolIdVariable] }), (1, { Variables := [poolVariable] })]) := by
    rfl
  have hprojects : (poolSpace projectA projectB).Projects_GetAll = .ok [projectA, projectB] := rfl
  simp only [Execute, hprojects, hfetch, duplicateVars_pool SpecialVars h]
  decide

/-- Witness of C2's evaluation, for an exclusion list that does not name `PoolId`. -/
theorem ignored_second_variable_is_reported_witness :
    shouldIgnoreVariable ["Octopus.Action.Package.PackageId"] poolVariable = true ∧
      Execute ["Octopus.Action.Package.PackageId"]
          { client := some (poolSpace projectA projectB), errorHandler := strictHandler } =
        { accesses := [.ProjectsGetAll, .VariablesGetAll "Projects-1",
            .VariablesGetAll "Projects-2"],
          returned := .values
            (some (NewOctopusCheckResultImpl
              "The following variables are duplicated between projects. Consider moving these into library variable sets:\nProjectA/PoolId == ProjectB/Pool"
              "OctoLintDuplicatedVariables" "" .Warning .Organization)) none } :=
  ignored_second_variable_is_reported ["Octopus.Action.Package.PackageId"] (by decide)

/-- C3: the same two projects fetched in the two orders. For `ProjectA`, then `ProjectB` the
check warns about the pair of `PoolId` and `Pool`; for `ProjectB`, then `ProjectA` it
collects no entry and returns Ok. -/
theorem swapped_projects_give_other_pairs (SpecialVars : List String)
    (h : "PoolId" ∉ SpecialVars) :
    (Execute SpecialVars
          { client := some (poolSpace projectA projectB), errorHandler := strictHandler }).returned =
        .values
          (some (NewOctopusCheckResultImpl
            "The following variables are duplicated between projects. Consider moving these into library variable sets:\nProjectA/PoolId == ProjectB/Pool"
            "OctoLintDuplicatedVariables" "" .Warning .Organization)) none ∧
      (Execute SpecialVars
          { client := some (poolSpace projectB projectA), errorHandler := strictHandler }).returned =
        .values
          (some (NewOctopusCheckResultImpl "There are no duplicated variables"
            "OctoLintDuplicatedVariables" "" .Ok .Organization)) none := by
  have hfetch : fetchProjectVars (poolSpace projectA projectB) strictHandler
      [projectA, projectB].enum =
        ([.VariablesGetAll "Projects-1", .VariablesGetAll "Projects-2"],
          .ok [(0, { Variables := [poolIdVariable] }), (1, { Variables := [poolVariable] })]) := by
    rfl
  have hfetch' : fetchProjectVars (poolSpace projectB projectA) strictHandler
      [projectB, projectA].enum =
        ([.VariablesGetAll "Projects-2", .VariablesGetAll "Projects-1"],
          .ok [(0, { Variables := [poolVariable] }), (1, { Variables := [poolIdVariable] })]) := by
    rfl
  have hprojects : (poolSpace projectA projectB).Projects_GetAll = .ok [projectA, projectB] := rfl
  have hprojects' : (poolSpace projectB projectA).Projects_GetAll = .ok [projectB, projectA] := rfl
  constructor
  · simp only [Execute, hprojects, hfetch, duplicateVars_pool SpecialVars h]
    decide
  · simp only [Execute, hprojects', hfetch', duplicateVars_pool_swapped SpecialVars]
    decide

/-- Witness of C3's evaluation, for an exclusion list that does not name `PoolId`. -/
theorem swapped_projects_give_other_pairs_witness :
    (Execute ["Octopus.Action.Package.PackageId"]
          { client := some (poolSpace projectA projectB), errorHandler := strictHandler }).returned =
        .values
          (some (NewOctopusCheckResultImpl
            "The following variables are duplicated between projects. Consider moving these into library variable sets:\nProjectA/PoolId == ProjectB/Pool"
            "OctoLintDuplicatedVariables" "" .Warning .Organization)) none ∧
      (Execute ["Octopus.Action.Package.PackageId"]
          { client := some (poolSpace projectB projectA), errorHandler := strictHandler }).returned =
        .values
          (some (NewOctopusCheckResultImpl "There are no duplicated variables"
            "OctoLintDuplicatedVariables" "" .Ok .Organization)) none :=
  swapped_projects_give_other_pairs ["Octopus.Action.Package.PackageId"] (by decide)

/-- C4: `ProjectA` has the plain text variable `AccountId`; `ProjectB` has a plain text
variable `AccountId` and a variable `Account` of an account type, all three of the same
value. `Account` is a variable the check ignores, and the check collects two entries, the
second with `Account` as its second variable, and reports two lines. -/
theorem entry_with_ignored_second_variable (SpecialVars : List String)
    (h : "AccountId" ∉ SpecialVars) :
    shouldIgnoreVariable SpecialVars accountVariable = true ∧
      duplicateVars SpecialVars [projectA, projectB]
          [(0, { Variables := [accountIdVariable] }),
           (1, { Variables := [accountIdVariable, accountVariable] })] =
        [{ project1 := projectA, variable1 := accountIdVariable, project2 := projectB,
           variable2 := accountIdVariable },
         { project1 := projectA, variable1 := accountIdVariable, project2 := projectB,
           variable2 := accountVariable }] ∧
      Execute SpecialVars
          { client := some accountSpace, errorHandler := strictHandler } =
        { accesses := [.ProjectsGetAll, .VariablesGetAll "Projects-1",
            .VariablesGetAll "Projects-2"],
          returned := .values
            (some (NewOctopusCheckResultImpl
              "The following variables are duplicated between projects. Consider moving these into library variable sets:\nProjectA/AccountId == ProjectB/AccountId\nProjectA/AccountId == ProjectB/Account"
              "OctoLintDuplicatedVariables" "" .Warning .Organization)) none } := by
  have h1 : shouldIgnoreVariable SpecialVars accountIdVariable = false := by
    rw [shouldIgnoreVariable_of_not_mem SpecialVars accountIdVariable h]
    decide
  have h2 := shouldIgnoreVariable_of_type SpecialVars accountVariable (by decide)
  have hdup : duplicateVars SpecialVars [projectA, projectB]
      [(0, { Variables := [accountIdVariable] }),
       (1, { Variables := [accountIdVariable, accountVariable] })] =
        [{ project1 := projectA, variable1 := accountIdVariable, project2 := projectB,
           variable2 := accountIdVariable },
         { project1 := projectA, variable1 := accountIdVariable, project2 := projectB,
           variable2 := accountVariable }] := by
    simp [duplicateVars, lookupVars, List.enum, List.enumFrom, List.lookup, h1, h2]
    decide
  have hfetch : fetchProjectVars accountSpace strictHandler [projectA, projectB].enum =
      ([.VariablesGetAll "Projects-1", .VariablesGetAll "Projects-2"],
        .ok [(0, { Variables := [accountIdVariable] }),
             (1, { Variables := [accountIdVariable, accountVariable] })]) := by
    rfl
  have hprojects : accountSpace.Projects_GetAll = .ok [projectA, projectB] := rfl
  refine ⟨h2, hdup, ?_⟩
  simp only [Execute, hprojects, hfetch, hdup]
  rfl

/-- Witness of C4's evaluation, for an exclusion list that does not name `AccountId`. -/
theorem entry_with_ignored_second_variable_witness :
    (Execute ["Octopus.Action.Package.PackageId"]
        { client := some accountSpace, errorHandler := strictHandler }).returned =
      .values
        (some (NewOctopusCheckResultImpl
          "The following variables are duplicated between projects. Consider moving these into library variable sets:\nProjectA/AccountId == ProjectB/AccountId\nProjectA/AccountId == ProjectB/Account"
          "OctoLintDuplicatedVariables" "" .Warning .Organization)) none :=
  congrArg Run.returned
    (entry_with_ignored_second_variable ["Octopus.Action.Package.PackageId"] (by decide)).2.2

end OctopusDuplicatedVariablesCheck

/-! ### The unused-variables check: the variables collected -/

namespace OctopusUnusedVariablesCheck

/-- The variables collected for one project: those of the set that are not on the ignore
list, that the scan of the steps does not find, and whose name occurs in the value of no
variable of the set, the variable itself included. -/
theorem mem_unusedOf (IgnoreVariable : String → Bool) (deploymentSteps : List DeploymentStep)
    (variableSet : VariableSet) (v : Variable) :
    v ∈ unusedOf IgnoreVariable deploymentSteps variableSet ↔
      v ∈ variableSet.Variables ∧ IgnoreVariable v.Name = false ∧
        naiveStepVariableScan deploymentSteps v = false ∧
        ∀ w ∈ variableSet.Variables, stringsContains w.Value v.Name = false := by
  unfold unusedOf
  rw [List.mem_flatMap]
  constructor
  · rintro ⟨w, hw, hv⟩
    cases hi : IgnoreVariable w.Name with
    | true => simp [hi] at hv
    | false =>
      cases hs : naiveStepVariableScan deploymentSteps w with
      | true => simp [hi, hs] at hv
      | false =>
        cases hn : naiveVariableSetVariableScan variableSet w with
        | true => simp [hi, hs, hn] at hv
        | false =>
          simp [hi, hs, hn] at hv
          subst hv
          refine ⟨hw, hi, hs, ?_⟩
          intro u hu
          unfold naiveVariableSetVariableScan at hn
          rw [List.any_eq_false] at hn
          simpa using hn u hu
  · rintro ⟨hv, hi, hs, hall⟩
    have hn : naiveVariableSetVariableScan variableSet v = false := by
      unfold naiveVariableSetVariableScan
      rw [List.any_eq_false]
      intro u hu
      simpa using hall u hu
    exact ⟨v, hv, by simp [hi, hs, hn]⟩

end OctopusUnusedVariablesCheck

/-! ### The unused-variables check: claims -/

namespace OctopusUnusedVariablesCheck

/-- C8: the only variable of the project `P` is `Database`, whose own value `OrdersDatabase`
contains its name; no step, package or other variable mentions it. The scan of the variable
set finds the name in the value of the variable itself, so the variable counts as used and
`Execute` reports no unused variable, whatever the ignore list. -/
theorem variable_is_used_by_its_own_value (IgnoreVariable : String → Bool) :
    naiveStepVariableScan [] databaseVariable = false ∧
      naiveVariableSetVariableScan { Variables := [databaseVariable] } databaseVariable = true ∧
      Execute IgnoreVariable
          { client := some selfNamedSpace, errorHandler := strictHandler,
            config := some zeroConfig } =
        { accesses := [.GetProjects, .VariablesGetAll "Projects-1",
            .DeploymentProcessesGetByID ""],
          returned := .values
            (some (NewOctopusCheckResultImpl "There are no unused variables"
              "OctoLintUnusedVariables" "" .Ok .Organization)) none } := by
  have hself :
      naiveVariableSetVariableScan { Variables := [databaseVariable] } databaseVariable = true := by
    decide
  have hunused : unusedOf IgnoreVariable [] { Variables := [databaseVariable] } = [] := by
    cases hi : IgnoreVariable databaseVariable.Name <;> simp [unusedOf, hi, hself]
  have hsteps : getDeploymentSteps selfNamedSpace strictHandler projectP =
      ([.DeploymentProcessesGetByID ""], .value []) := by
    rfl
  have hvars : selfNamedSpace.Variables_GetAll projectP.ID =
      .ok { Variables := [databaseVariable] } := rfl
  have hscan : scanProjects IgnoreVariable selfNamedSpace strictHandler [projectP] =
      ([.VariablesGetAll "Projects-1", .DeploymentProcessesGetByID ""], .value []) := by
    simp only [scanProjects, hvars, hsteps, hunused]
    rfl
  have hprojects : selfNamedSpace.GetProjects zeroConfig.MaxUnusedVariablesProjects
      selfNamedSpace.SpaceID = .ok [projectP] := rfl
  refine ⟨by decide, hself, ?_⟩
  simp only [Execute, hprojects, hscan]
  rfl

end OctopusUnusedVariablesCheck

namespace OctopusUnusedVariablesCheck

/-- No variable collected for one project is on the ignore list. -/
theorem unusedOf_not_ignored (IgnoreVariable : String → Bool)
    (deploymentSteps : List DeploymentStep) (variableSet : VariableSet) :
    ∀ v ∈ unusedOf IgnoreVariable deploymentSteps variableSet, IgnoreVariable v.Name = false := by
  intro v hv
  unfold unusedOf at hv
  rw [List.mem_flatMap] at hv
  obtain ⟨w, _, hw⟩ := hv
  cases hi : IgnoreVariable w.Name with
  | true => simp [hi] at hw
  | false =>
    simp only [hi] at hw
    by_cases hu : (naiveStepVariableScan deploymentSteps w ||
        naiveVariableSetVariableScan variableSet w) = true
    · simp [hu] at hw
    · simp [hu] at hw
      rw [hw]
      exact hi

/-- No variable in the map the loop over the projects fills is on the ignore list. -/
theorem scanProjects_not_ignored (IgnoreVariable : String → Bool) (client : Client)
    (errorHandler : OctopusClientErrorHandler) (projects : List Project) :
    ∀ (accesses : List Access) (unusedVars : List (Project × List Variable)),
      scanProjects IgnoreVariable client errorHandler projects = (accesses, .value unusedVars) →
      ∀ pv ∈ unusedVars, ∀ v ∈ pv.2, IgnoreVariable v.Name = false := by
  induction projects with
  | nil =>
    intro accesses unusedVars h pv hpv
    simp [scanProjects] at h
    rw [h.2] at hpv
    simp at hpv
  | cons p rest ih =>
    intro accesses unusedVars h pv hpv v hv
    unfold scanProjects at h
    cases hvars : client.Variables_GetAll p.ID with
    | error err =>
      rw [hvars] at h
      by_cases hc : errorHandler.ShouldContinue err = true
      · simp [hc, Call.after] at h
        exact ih _ _ (Prod.ext rfl h.2) pv hpv v hv
      · simp [hc] at h
    | ok variableSet =>
      rw [hvars] at h
      rcases hsteps : getDeploymentSteps client errorHandler p with ⟨acc, call⟩
      rw [hsteps] at h
      cases call with
      | panic => simp at h
      | error err =>
        by_cases hc : errorHandler.ShouldContinue err = true
        · simp [hc, Call.after] at h
          exact ih _ _ (Prod.ext rfl h.2) pv hpv v hv
        · simp [hc] at h
      | value deploymentSteps =>
        simp only at h
        rcases hrest : scanProjects IgnoreVariable client errorHandler rest with ⟨acc', call'⟩
        rw [hrest] at h
        cases call' with
        | panic => simp [Call.map] at h
        | error err => simp [Call.map] at h
        | value found =>
          simp only [Call.map, Prod.mk.injEq, Call.value.injEq] at h
          have hfound := ih _ _ hrest
          cases hu : unusedOf IgnoreVariable deploymentSteps variableSet with
          | nil =>
            rw [hu] at h
            rw [← h.2] at hpv
            exact hfound pv hpv v hv
          | cons u us =>
            rw [hu] at h
            rw [← h.2] at hpv
            rcases List.mem_cons.1 hpv with heq | hmem
            · rw [heq] at hv
              refine unusedOf_not_ignored IgnoreVariable deploymentSteps variableSet v ?_
              rw [hu]
              exact hv
            · exact hfound pv hmem v hv

/-- C9: whatever the client, the error handler and the projects, no variable in the map
`unusedVars` that the loop of `Execute` fills, from which the lines of the warning are made,
has a name for which `checks.IgnoreVariable` returns true. -/
theorem ignored_variable_is_never_reported (IgnoreVariable : String → Bool) (client : Client)
    (errorHandler : OctopusClientErrorHandler) (projects : List Project)
    (accesses : List Access) (unusedVars : List (Project × List Variable))
    (h : scanProjects IgnoreVariable client errorHandler projects = (accesses, .value unusedVars))
    (p : Project) (unused : List Variable) (hp : (p, unused) ∈ unusedVars)
    (v : Variable) (hv : v ∈ unused) : IgnoreVariable v.Name = false :=
  scanProjects_not_ignored IgnoreVariable client errorHandler projects accesses unusedVars h
    (p, unused) hp v hv

/-- Witness of C9: of the two unmentioned variables of `P`, the ignored
`OctopusPrintVariables` is left out and `Port` is reported. -/
theorem ignored_variable_is_never_reported_witness :
    scanProjects ignorePrintVariable portSpace strictHandler [projectP] =
        ([.VariablesGetAll "Projects-1", .DeploymentProcessesGetByID ""],
          .value [(projectP, [portVariable])]) ∧
      ignorePrintVariable printVariable.Name = true ∧
      ignorePrintVariable portVariable.Name = false :=
  ⟨rfl, by decide,
    ignored_variable_is_never_reported ignorePrintVariable portSpace strictHandler [projectP]
      [.VariablesGetAll "Projects-1", .DeploymentProcessesGetByID ""]
      [(projectP, [portVariable])] rfl projectP [portVariable] (List.mem_singleton.2 rfl)
      portVariable (List.mem_singleton.2 rfl)⟩

end OctopusUnusedVariablesCheck

namespace OctopusProjectContainerImageRegex

/-- C11: when the configured container-image regex is not blank and does not compile, and the
client is not nil, `Execute` returns a Result of severity Error that carries the identifier of
the check, with a nil error, and has made no data-access call. -/
theorem invalid_regex_is_an_error_result (R : RegexpPackage)
    (o : OctopusProjectContainerImageRegex) (client : Client) (config : OctolintConfig)
    (concurrency : Int) (compileError : GoError)
    (hclient : o.client = some client) (hconfig : o.config = some config)
    (hnonblank : stringsTrimSpace config.ContainerImageRegex ≠ "")
    (hcompile : R.Compile config.ContainerImageRegex = .error compileError) :
    Execute R o concurrency =
      { accesses := [],
        returned := .values
          (some { description :=
                    "The supplied regex " ++ config.ContainerImageRegex ++ " does not compile",
                  code := "OctoLintProjectContainerImageName", link := "",
                  severity := .Error, category := .Naming })
          none } := by
  have hb : (stringsTrimSpace config.ContainerImageRegex == "") = false := by
    simpa using hnonblank
  unfold Execute
  simp only [hclient, hconfig, hb, hcompile]
  rfl

/-- Witness of C11: the regex `(`, in a space that has a project. -/
theorem invalid_regex_is_an_error_result_witness :
    Execute parenRegexp
        { client := some oneProjectSpace, errorHandler := strictHandler,
          config := some { zeroConfig with ContainerImageRegex := "(" } } 4 =
      { accesses := [],
        returned := .values
          (some { description := "The supplied regex ( does not compile",
                  code := "OctoLintProjectContainerImageName", link := "",
                  severity := .Error, category := .Naming })
          none } :=
  invalid_regex_is_an_error_result parenRegexp _ oneProjectSpace
    { zeroConfig with ContainerImageRegex := "(" } 4
    (errorsNew "error parsing regexp: missing closing )") rfl rfl (by decide) rfl

end OctopusProjectContainerImageRegex

/-! ### The too-many-steps check: claims -/

namespace OctopusProjectTooManyStepsCheck

/-- C13: the fetch of the deployment process of `P` fails with a network error, which is not
a `*core.APIError`, and the handler says not to continue. The type assertion in
`stepsInDeploymentProcess` panics, so `Execute` does not return that error. With an API error
of status 500 in its place, `Execute` returns no Result and that error. -/
theorem network_error_panics :
    Execute { client := some (failingProcessSpace (.other "dial tcp: connection refused")),
              errorHandler := strictHandler, config := some zeroConfig } =
        { accesses := [.ProjectsGetAll,
            .DeploymentProcessesGetByID "deploymentprocess-Projects-1"],
          returned := .panic } ∧
      Execute { client := some (failingProcessSpace (.apiError 500 "Internal Server Error")),
                errorHandler := strictHandler, config := some zeroConfig } =
        { accesses := [.ProjectsGetAll,
            .DeploymentProcessesGetByID "deploymentprocess-Projects-1"],
          returned := .values none (some (.apiError 500 "Internal Server Error")) } := by
  decide

/-- The part of C13 that holds: when the loop reaches a project whose deployment process
fails to load with an API error of a status other than 404, and the handler says not to
continue, the loop ends with that error. -/
theorem api_error_aborts (client : Client) (errorHandler : OctopusClientErrorHandler)
    (p : Project) (rest : List Project) (statusCode : Int) (msg : String)
    (hid : p.DeploymentProcessID ≠ "")
    (hfetch : client.DeploymentProcesses_GetByID p.DeploymentProcessID =
      .error (.apiError statusCode msg))
    (hstatus : statusCode ≠ 404)
    (habort : errorHandler.ShouldContinue (.apiError statusCode msg) = false) :
    scanProjects client errorHandler (p :: rest) =
      ([.DeploymentProcessesGetByID p.DeploymentProcessID],
        .error (.apiError statusCode msg)) := by
  have hb : (p.DeploymentProcessID == "") = false := by simpa using hid
  have hs : (statusCode == 404) = false := by simpa using hstatus
  simp [scanProjects, stepsInDeploymentProcess, hb, hfetch, hs, habort]

end OctopusProjectTooManyStepsCheck

/-! ### The default-project-group check: claims -/

namespace OctopusDefaultProjectGroupCountCheck

/-- The text of an API error is not the text `cannot find the item`. -/
theorem apiError_text_ne (statusCode : Int) (msg : String) :
    ((GoError.apiError statusCode msg).Error == "cannot find the item") = false := by
  have hne : (GoError.apiError statusCode msg).Error ≠ "cannot find the item" := by
    intro h
    have hd := congrArg String.data h
    simp [GoError.Error, String.data_append] at hd
  simpa using hne

/-- C15: when the default project group and its `n` projects are fetched, `Execute` returns
a Result and no error; the severity of the Result is Warning when `n > 10` and Ok when
`n ≤ 10`. -/
theorem project_count_decides_severity (o : OctopusDefaultProjectGroupCountCheck)
    (client : Client) (config : OctolintConfig) (resource : ProjectGroup)
    (projects : List Project)
    (hclient : o.client = some client) (hconfig : o.config = some config)
    (hgroup : client.ProjectGroups_GetByName "Default Project Group" = .ok (some resource))
    (hprojects : client.ProjectGroups_GetProjects resource = .ok projects) :
    ∃ r, (Execute o).returned = .values (some r) none ∧
      r.code = "OctoLintDefaultProjectGroupChildCount" ∧
      (projects.length > 10 → r.severity = .Warning) ∧
      (projects.length ≤ 10 → r.severity = .Ok) := by
  unfold Execute
  simp only [hclient, hconfig, hgroup, hprojects]
  by_cases hn : projects.length > 10
  · have hi : (projects.length : Int) > maxProjectsInDefaultGroup := by
      unfold maxProjectsInDefaultGroup; omega
    rw [if_pos hi]
    exact ⟨_, rfl, rfl, fun _ => rfl, fun hle => absurd hn (by omega)⟩
  · have hi : ¬ (projects.length : Int) > maxProjectsInDefaultGroup := by
      unfold maxProjectsInDefaultGroup; omega
    rw [if_neg hi]
    exact ⟨_, rfl, rfl, fun h => absurd h hn, fun _ => rfl⟩

/-- Witness of C15: two projects pass, eleven projects give a warning. -/
theorem project_count_decides_severity_witness :
    (∃ r, (Execute { client := some (defaultGroupSpace 2), errorHandler := strictHandler,
                     config := some zeroConfig }).returned = .values (some r) none ∧
        r.code = "OctoLintDefaultProjectGroupChildCount" ∧
        ((List.replicate 2 projectP).length > 10 → r.severity = .Warning) ∧
        ((List.replicate 2 projectP).length ≤ 10 → r.severity = .Ok)) ∧
      (Execute { client := some (defaultGroupSpace 11), errorHandler := strictHandler,
                 config := some zeroConfig }).returned =
        .values (some (NewOctopusCheckResultImpl
          "The default project group contains 11 projects. You may want to organize these projects into additional project groups."
          "OctoLintDefaultProjectGroupChildCount" "" .Warning .Organization)) none :=
  ⟨project_count_decides_severity _ (defaultGroupSpace 2) zeroConfig
      { ID := "ProjectGroups-1", Name := "Default Project Group" } (List.replicate 2 projectP)
      rfl rfl rfl rfl,
    by decide⟩

/-- C16: run with the permissive error handler and a client that is not nil. When the fetch
of the default project group fails with a permission-denied error, `Execute` returns, after
that one fetch, a Result of severity Permission and a nil error. When the group is fetched
and the fetch of its projects fails with a permission-denied error, `Execute` returns the
same after these two fetches. -/
theorem permission_denied_gives_permission_result (describe : GoError → String)
    (o : OctopusDefaultProjectGroupCountCheck) (client : Client) (config : OctolintConfig)
    (err : GoError)
    (hclient : o.client = some client) (hconfig : o.config = some config)
    (hhandler : o.errorHandler = permissiveHandler describe)
    (hdenied : isPermissionDenied err = true) :
    (client.ProjectGroups_GetByName "Default Project Group" = .error err →
        Execute o =
          { accesses := [.ProjectGroupsGetByName "Default Project Group"],
            returned := .values
              (some { description := describe err,
                      code := "OctoLintDefaultProjectGroupChildCount", link := "",
                      severity := .Permission, category := .Organization })
              none }) ∧
      (∀ resource : ProjectGroup,
        client.ProjectGroups_GetByName "Default Project Group" = .ok (some resource) →
        client.ProjectGroups_GetProjects resource = .error err →
        Execute o =
          { accesses := [.ProjectGroupsGetByName "Default Project Group",
              .ProjectGroupsGetProjects resource.ID],
            returned := .values
              (some { description := describe err,
                      code := "OctoLintDefaultProjectGroupChildCount", link := "",
                      severity := .Permission, category := .Organization })
              none }) := by
  constructor
  · intro hgroup
    match err, hdenied with
    | .apiError statusCode msg, hdenied =>
      have hstatus : statusCode = 403 := by simpa [isPermissionDenied] using hdenied
      subst hstatus
      have hnf : isNotFound (.apiError 403 msg) = false := by simp [isNotFound]
      unfold Execute
      simp only [hclient, hconfig, hgroup, hnf, apiError_text_ne, hhandler]
      simp [permissiveHandler, isPermissionDenied, Run.after, Run.ret,
        NewOctopusCheckResultImpl, Id]
  · intro resource hgroup hprojects
    unfold Execute
    simp only [hclient, hconfig, hgroup, hprojects, hhandler]
    simp [permissiveHandler, hdenied, Run.after, Run.ret, NewOctopusCheckResultImpl, Id]

/-- Witness of C16: the fetch of the group is denied; the fetch of its projects is denied. -/
theorem permission_denied_gives_permission_result_witness :
    Execute { client := some deniedGroupSpace, errorHandler := permissiveHandler GoError.Error,
              config := some zeroConfig } =
        { accesses := [.ProjectGroupsGetByName "Default Project Group"],
          returned := .values
            (some { description := "Octopus API error: You do not have permission [] ",
                    code := "OctoLintDefaultProjectGroupChildCount", link := "",
                    severity := .Permission, category := .Organization })
            none } ∧
      Execute { client := some deniedProjectsSpace,
                errorHandler := permissiveHandler GoError.Error, config := some zeroConfig } =
        { accesses := [.ProjectGroupsGetByName "Default Project Group",
            .ProjectGroupsGetProjects "ProjectGroups-1"],
          returned := .values
            (some { description := "Octopus API error: You do not have permission [] ",
                    code := "OctoLintDefaultProjectGroupChildCount", link := "",
                    severity := .Permission, category := .Organization })
            none } :=
  ⟨(permission_denied_gives_permission_result GoError.Error _ deniedGroupSpace zeroConfig
      (.apiError 403 "You do not have permission") rfl rfl rfl rfl).1 rfl,
    (permission_denied_gives_permission_result GoError.Error _ deniedProjectsSpace zeroConfig
      (.apiError 403 "You do not have permission") rfl rfl rfl rfl).2
      { ID := "ProjectGroups-1", Name := "Default Project Group" } rfl rfl⟩

end OctopusDefaultProjectGroupCountCheck

/-! ### The insecure-target check: claims -/

namespace OctopusInsecureK8sCheck

/-- When only Kubernetes endpoints report the communication style `Kubernetes`, the loop over
the filtered targets ends without a panic, with the names of the insecure targets. -/
theorem insecureMachines_filter (targets : List DeploymentTarget)
    (hkind : ∀ t ∈ targets, t.Endpoint ≠ .otherKind "Kubernetes") :
    insecureMachines
        (targets.filter fun item => item.Endpoint.GetCommunicationStyle == "Kubernetes") =
      .value ((targets.filter isInsecureKubernetesTarget).map fun t => t.Name) := by
  induction targets with
  | nil => rfl
  | cons t rest ih =>
    have hrest := ih fun u hu => hkind u (List.mem_cons_of_mem _ hu)
    cases hend : t.Endpoint with
    | otherKind s =>
      have hs : s ≠ "Kubernetes" := by
        intro h
        rw [h] at hend
        exact hkind t (List.mem_cons_self _ _) hend
      have hstyle : (t.Endpoint.GetCommunicationStyle == "Kubernetes") = false := by
        rw [hend]; simpa [Endpoint.GetCommunicationStyle] using hs
      have hins : isInsecureKubernetesTarget t = false := by
        simp [isInsecureKubernetesTarget, hend]
      rw [List.filter_cons, hstyle, List.filter_cons, hins]
      simpa using hrest
    | kubernetes e =>
      have hstyle : (t.Endpoint.GetCommunicationStyle == "Kubernetes") = true := by
        rw [hend]; simp [Endpoint.GetCommunicationStyle]
      have hins : isInsecureKubernetesTarget t = insecureEndpoint e := by
        simp [isInsecureKubernetesTarget, hend, insecureEndpoint]
      rw [List.filter_cons, hstyle, List.filter_cons, hins]
      simp only [if_true, insecureMachines, hend, hrest, Call.map]
      cases insecureEndpoint e <;> simp

/-- C17: for every list of fetched targets in which only Kubernetes endpoints report the
communication style `Kubernetes`, the check lists exactly the names of the targets with a
Kubernetes endpoint that skips TLS verification or has a cluster URL on `http://`; the
result is Ok when none is listed and a Warning with one line per listed target otherwise. A
target of another kind is not listed, and a Kubernetes target without cluster URL is listed
exactly when it skips TLS verification. -/
theorem insecure_kubernetes_targets_listed (o : OctopusInsecureK8sCheck) (client : Client)
    (config : OctolintConfig) (targets : List DeploymentTarget)
    (hclient : o.client = some client) (hconfig : o.config = some config)
    (htargets : client.Machines_GetAll = .ok targets)
    (hkind : ∀ t ∈ targets, t.Endpoint ≠ .otherKind "Kubernetes") :
    Execute o =
        { accesses := [.MachinesGetAll],
          returned := .values
            (some (if (targets.filter isInsecureKubernetesTarget).length > 0 then
              { description :=
                  "The following Kubernetes skip TLS validation or use an insecure HTTP endpoint:\n" ++
                    stringsJoin ((targets.filter isInsecureKubernetesTarget).map fun t => t.Name)
                      "\n",
                code := "OctoLintInsecureK8sTargets", link := "", severity := .Warning,
                category := .Security }
            else
              { description := "There are no insecure Kubernetes targets",
                code := "OctoLintInsecureK8sTargets", link := "", severity := .Ok,
                category := .Security }))
            none } ∧
      (∀ name s, isInsecureKubernetesTarget { Name := name, Endpoint := .otherKind s } = false) ∧
      (∀ name skip, isInsecureKubernetesTarget
        { Name := name,
          Endpoint := .kubernetes { SkipTLSVerification := skip, ClusterURL := none } } = skip) := by
  refine ⟨?_, fun _ _ => rfl, fun _ skip => by cases skip <;> rfl⟩
  unfold Execute
  simp only [hclient, hconfig, htargets, insecureMachines_filter targets hkind]
  by_cases hlen : (targets.filter isInsecureKubernetesTarget).length > 0
  · simp [report, hlen, Run.after, Run.ret, NewOctopusCheckResultImpl, Id]
  · simp [report, hlen, Run.after, Run.ret, NewOctopusCheckResultImpl, Id]

/-- Witness of C17: of the four sample targets the one that skips TLS verification and the
one on plain HTTP are listed. -/
theorem insecure_kubernetes_targets_listed_witness :
    Execute { client := some sampleTargetsSpace, errorHandler := strictHandler,
              config := some zeroConfig } =
      { accesses := [.MachinesGetAll],
        returned := .values
          (some { description :=
                    "The following Kubernetes skip TLS validation or use an insecure HTTP endpoint:\nk8s-skip\nk8s-http",
                  code := "OctoLintInsecureK8sTargets", link := "", severity := .Warning,
                  category := .Security })
          none } :=
  (insecure_kubernetes_targets_listed _ sampleTargetsSpace zeroConfig sampleTargets rfl rfl rfl
    (by decide)).1

end OctopusInsecureK8sCheck

/-! ### The project-specific-environments check: the lookup of flagged environments -/

namespace OctopusProjectSpecificEnvironmentCheck

/-- The lookup of the id of a fetched environment does not return nil. -/
theorem getEnvironmentById_of_mem (allEnvironments : List Environment) (id : String)
    (h : ∃ e ∈ allEnvironments, e.ID = id) : getEnvironmentById allEnvironments id ≠ none := by
  induction allEnvironments with
  | nil => obtain ⟨e, he, _⟩ := h; simp at he
  | cons x rest ih =>
    unfold getEnvironmentById
    by_cases hx : x.ID = id
    · simp [hx]
    · have hb : (x.ID == id) = false := by simpa using hx
      simp only [hb]
      apply ih
      obtain ⟨e, he, hid⟩ := h
      rcases List.mem_cons.1 he with heq | hmem
      · rw [heq] at hid; exact absurd hid hx
      · exact ⟨e, hmem, hid⟩

/-- A lifecycle that `getLifecycleById` returns is one of the lifecycles. -/
theorem getLifecycleById_mem (lifecycles : List Lifecycle) (id : String) (l : Lifecycle)
    (h : getLifecycleById lifecycles id = some l) : l ∈ lifecycles := by
  induction lifecycles with
  | nil => simp [getLifecycleById] at h
  | cons x rest ih =>
    unfold getLifecycleById at h
    by_cases hx : (x.ID == id) = true
    · simp only [hx, if_true, Option.some.injEq] at h
      rw [← h]
      exact List.mem_cons_self _ _
    · simp only [hx] at h
      exact List.mem_cons_of_mem _ (ih h)

/-- Every id in the slice of a project is the id of a fetched environment or a deployment
target of a phase of a fetched lifecycle. -/
theorem mem_projectEnvironments (allLifecycles : List Lifecycle)
    (allEnvironments : List Environment) (allChannels : List Channel) (p : Project)
    (env : String)
    (h : env ∈ projectEnvironments allLifecycles allEnvironments allChannels p) :
    env ∈ getAllEnvironmentIds allEnvironments ∨
      ∃ l ∈ allLifecycles, env ∈ phaseEnvironments l.Phases := by
  unfold projectEnvironments at h
  simp only [List.mem_append, List.mem_flatMap] at h
  rcases h with h | ⟨c, _, h⟩
  · cases hl : getLifecycleById allLifecycles p.LifecycleID with
    | none => simp [hl] at h
    | some lifecycle =>
      simp only [hl, List.mem_append] at h
      rcases h with h | h
      · left
        by_cases hz : (lifecycle.Phases.length == 0) = true
        · simpa [hz] using h
        · simp [hz] at h
      · exact Or.inr ⟨lifecycle, getLifecycleById_mem _ _ _ hl, h⟩
  · by_cases hc : (c.ProjectID == p.ID) = true
    · simp only [hc, if_true] at h
      cases hcl : getLifecycleById allLifecycles c.LifecycleID with
      | none => simp [hcl] at h
      | some channelLifecycle =>
        simp only [hcl, List.mem_append] at h
        rcases h with h | h
        · left
          cases hl : getLifecycleById allLifecycles p.LifecycleID with
          | none => simp [hl] at h
          | some lifecycle =>
            simp only [hl] at h
            by_cases hz : (lifecycle.Phases.length == 0) = true
            · simpa [hz] using h
            · simp [hz] at h
        · exact Or.inr ⟨channelLifecycle, getLifecycleById_mem _ _ _ hcl, h⟩
    · simp [hc] at h

/-- Every key of the map `environmentCount` is in the slice of one of the projects. -/
theorem key_of_countProjects (reach : List (Project × List String)) (env : String)
    (names : List String) (h : (env, names) ∈ countProjects reach) :
    ∃ pe ∈ reach, env ∈ pe.2 := by
  have hnodup := nodup_keys_countProjects_foldl reach [] (by simp)
  have hlook := (mem_iff_lookup _ hnodup env names).1 h
  unfold countProjects at hlook
  rw [lookup_countProjects_foldl] at hlook
  by_cases hr : reachingProjects reach env = []
  · simp [hr] at hlook
  · obtain ⟨name, hname⟩ := List.exists_mem_of_ne_nil _ hr
    unfold reachingProjects at hname
    obtain ⟨pe, hpe, _⟩ := List.mem_map.1 hname
    rw [List.mem_filter] at hpe
    exact ⟨pe, hpe.1, by simpa using hpe.2⟩

/-- C18: when every environment id named as an automatic or optional deployment target of a
phase of a fetched lifecycle is the id of a fetched environment, the lookup of every flagged
environment finds it, and `Execute`, after its four fetches, returns a Result and no
error. -/
theorem flagged_environments_are_found (o : OctopusProjectSpecificEnvironmentCheck)
    (client : Client) (config : OctolintConfig) (projects : List Project)
    (allLifecycles : List Lifecycle) (allEnvironments : List Environment)
    (allChannels : List Channel)
    (hclient : o.client = some client) (hconfig : o.config = some config)
    (hprojects : client.GetProjects config.MaxProjectSpecificEnvironmentProjects
      client.SpaceID = .ok projects)
    (hlifecycles : client.Lifecycles_GetAll = .ok allLifecycles)
    (henvironments : client.Environments_GetAll = .ok allEnvironments)
    (hchannels : client.Channels_GetAll = .ok allChannels)
    (htargets : ∀ l ∈ allLifecycles, ∀ phase ∈ l.Phases,
      ∀ id ∈ phase.AutomaticDeploymentTargets ++ phase.OptionalDeploymentTargets,
        ∃ e ∈ allEnvironments, e.ID = id) :
    (∀ x ∈ singleProjectEnvironments (countProjects (projects.map fun p =>
        (p, projectEnvironments allLifecycles allEnvironments allChannels p))),
      getEnvironmentById allEnvironments x.1 ≠ none) ∧
      ∃ r, Execute o =
        { accesses := [.GetProjects, .LifecyclesGetAll, .EnvironmentsGetAll, .ChannelsGetAll],
          returned := .values (some r) none } := by
  have hfound : ∀ x ∈ singleProjectEnvironments (countProjects (projects.map fun p =>
      (p, projectEnvironments allLifecycles allEnvironments allChannels p))),
      getEnvironmentById allEnvironments x.1 ≠ none := by
    rintro ⟨env, name⟩ hx
    have hcount := (mem_singleProjectEnvironments _ env name).1 hx
    obtain ⟨pe, hpe, henv⟩ := key_of_countProjects _ env [name] hcount
    obtain ⟨p, _, rfl⟩ := List.mem_map.1 hpe
    apply getEnvironmentById_of_mem
    rcases mem_projectEnvironments _ _ _ p env henv with hall | ⟨l, hl, hphase⟩
    · simpa [getAllEnvironmentIds] using hall
    · unfold phaseEnvironments at hphase
      obtain ⟨phase, hphase, hid⟩ := List.mem_flatMap.1 hphase
      exact htargets l hl phase hphase env hid
  refine ⟨hfound, ?_⟩
  unfold Execute
  simp only [hclient, hconfig, hprojects, hlifecycles, henvironments, hchannels, analyse, report]
  by_cases hlen : (singleProjectEnvironments (countProjects (projects.map fun p =>
      (p, projectEnvironments allLifecycles allEnvironments allChannels p)))).length > 0
  · rw [if_pos hlen, messages_of_found allEnvironments _ hfound]
    exact ⟨_, rfl⟩
  · rw [if_neg hlen]
    exact ⟨_, rfl⟩

/-- Witness of C18: the space where `P` targets `Dev` through its lifecycle and has a channel
on the default lifecycle; `Dev` is flagged and found. -/
theorem flagged_environments_are_found_witness :
    ∃ r, Execute { client := some channelOverrideSpace, errorHandler := strictHandler,
                   config := some zeroConfig } =
      { accesses := [.GetProjects, .LifecyclesGetAll, .EnvironmentsGetAll, .ChannelsGetAll],
        returned := .values (some r) none } :=
  (flagged_environments_are_found _ channelOverrideSpace zeroConfig [projectP]
    devLifecycleAndDefault devAndProd
    [{ ProjectID := "Projects-1", LifecycleID := "Lifecycles-2" }] rfl rfl rfl rfl rfl rfl
    (by decide)).2

end OctopusProjectSpecificEnvironmentCheck

/-! ### Deployment processes that are not found -/

/-- A mapped call whose function changes nothing. -/
theorem Call.map_of_id {α : Type} (f : α → α) (h : ∀ a, f a = a) (c : Call α) :
    c.map f = c := by
  cases c <;> simp [Call.map, h]

namespace OctopusProjectTooManyStepsCheck

/-- The helper reads the client only through the fetch of deployment processes. -/
theorem stepCount_congr (client client' : Client)
    (h : client.DeploymentProcesses_GetByID = client'.DeploymentProcesses_GetByID)
    (deploymentProcessID : String) :
    stepsInDeploymentProcess client deploymentProcessID =
      stepsInDeploymentProcess client' deploymentProcessID := by
  unfold stepsInDeploymentProcess
  rw [h]

/-- The loop reads the client only through the fetch of deployment processes. -/
theorem stepScan_congr (client client' : Client)
    (h : client.DeploymentProcesses_GetByID = client'.DeploymentProcesses_GetByID)
    (errorHandler : OctopusClientErrorHandler) (projects : List Project) :
    scanProjects client errorHandler projects = scanProjects client' errorHandler projects := by
  induction projects with
  | nil => rfl
  | cons p rest ih =>
    unfold scanProjects
    rw [stepCount_congr client client' h, ih]

/-- A project with an empty deployment-process id, or whose deployment process is not found,
has zero steps. -/
theorem stepCount_missing (client : Client) (p : Project)
    (hmissing : p.DeploymentProcessID = "" ∨
      ∃ msg, client.DeploymentProcesses_GetByID p.DeploymentProcessID =
        .error (.apiError 404 msg)) :
    ∃ accesses, stepsInDeploymentProcess client p.DeploymentProcessID = (accesses, .value 0) ∧
      (p.DeploymentProcessID = "" → accesses = []) := by
  by_cases hid : p.DeploymentProcessID = ""
  · exact ⟨[], by simp [stepsInDeploymentProcess, hid], fun _ => rfl⟩
  · rcases hmissing with h | ⟨msg, hfetch⟩
    · exact absurd h hid
    · have hb : (p.DeploymentProcessID == "") = false := by simpa using hid
      exact ⟨[.DeploymentProcessesGetByID p.DeploymentProcessID],
        by simp [stepsInDeploymentProcess, hb, hfetch], fun h => absurd h hid⟩

/-- The loop ends the same way with and without a project that has no deployment process. -/
theorem stepScan_missing (client : Client) (errorHandler : OctopusClientErrorHandler)
    (p : Project) (rest : List Project)
    (hmissing : p.DeploymentProcessID = "" ∨
      ∃ msg, client.DeploymentProcesses_GetByID p.DeploymentProcessID =
        .error (.apiError 404 msg)) :
    ∀ pre : List Project,
      (scanProjects client errorHandler (pre ++ p :: rest)).2 =
        (scanProjects client errorHandler (pre ++ rest)).2 := by
  intro pre
  induction pre with
  | nil =>
    obtain ⟨accesses, hsteps, _⟩ := stepCount_missing client p hmissing
    simp only [List.nil_append, scanProjects, hsteps]
    exact Call.map_of_id _ (fun found => by simp [maxStepCount]) _
  | cons q pre ih =>
    simp only [List.cons_append, scanProjects]
    rcases hq : stepsInDeploymentProcess client q.DeploymentProcessID with ⟨acc, call⟩
    cases call with
    | panic => rfl
    | error err =>
      by_cases hc : errorHandler.ShouldContinue err = true
      · simp [hc, Call.after, ih]
      · simp [hc]
    | value stepCount =>
      have ih' : (scanProjects client errorHandler (pre.append (p :: rest))).2 =
          (scanProjects client errorHandler (pre.append rest)).2 := ih
      simp only [ih']

end OctopusProjectTooManyStepsCheck

namespace OctopusProjectContainerImageRegex

/-- The helper reads the client only through the fetch of deployment processes. -/
theorem imageProcess_congr (client client' : Client)
    (h : client.DeploymentProcesses_GetByID = client'.DeploymentProcesses_GetByID)
    (deploymentProcessID : String) :
    stepsInDeploymentProcess client deploymentProcessID =
      stepsInDeploymentProcess client' deploymentProcessID := by
  unfold stepsInDeploymentProcess
  rw [h]

/-- The loop reads the client only through the fetch of deployment processes. -/
theorem imageScan_congr (R : RegexpPackage) (regex : R.Regexp) (client client' : Client)
    (h : client.DeploymentProcesses_GetByID = client'.DeploymentProcesses_GetByID)
    (errorHandler : OctopusClientErrorHandler) (projects : List Project) :
    scanProjects R regex client errorHandler projects =
      scanProjects R regex client' errorHandler projects := by
  induction projects with
  | nil => rfl
  | cons p rest ih =>
    unfold scanProjects
    rw [imageProcess_congr client client' h, ih]

/-- A project with an empty deployment-process id, or whose deployment process is not found,
has no deployment process to scan. -/
theorem imageProcess_missing (client : Client) (p : Project)
    (hmissing : p.DeploymentProcessID = "" ∨
      ∃ msg, client.DeploymentProcesses_GetByID p.DeploymentProcessID =
        .error (.apiError 404 msg)) :
    ∃ accesses,
      stepsInDeploymentProcess client p.DeploymentProcessID = (accesses, .value none) ∧
      (p.DeploymentProcessID = "" → accesses = []) := by
  by_cases hid : p.DeploymentProcessID = ""
  · exact ⟨[], by simp [stepsInDeploymentProcess, hid], fun _ => rfl⟩
  · rcases hmissing with h | ⟨msg, hfetch⟩
    · exact absurd h hid
    · have hb : (p.DeploymentProcessID == "") = false := by simpa using hid
      exact ⟨[.DeploymentProcessesGetByID p.DeploymentProcessID],
        by simp [stepsInDeploymentProcess, hb, hfetch], fun h => absurd h hid⟩

/-- The loop ends the same way with and without a project that has no deployment process. -/
theorem imageScan_missing (R : RegexpPackage) (regex : R.Regexp) (client : Client)
    (errorHandler : OctopusClientErrorHandler) (p : Project) (rest : List Project)
    (hmissing : p.DeploymentProcessID = "" ∨
      ∃ msg, client.DeploymentProcesses_GetByID p.DeploymentProcessID =
        .error (.apiError 404 msg)) :
    ∀ pre : List Project,
      (scanProjects R regex client errorHandler (pre ++ p :: rest)).2 =
        (scanProjects R regex client errorHandler (pre ++ rest)).2 := by
  intro pre
  induction pre with
  | nil =>
    obtain ⟨accesses, hsteps, _⟩ := imageProcess_missing client p hmissing
    simp only [List.nil_append, scanProjects, hsteps, Call.after]
  | cons q pre ih =>
    simp only [List.cons_append, scanProjects]
    rcases hq : stepsInDeploymentProcess client q.DeploymentProcessID with ⟨acc, call⟩
    cases call with
    | panic => rfl
    | error err =>
      by_cases hc : errorHandler.ShouldContinue err = true
      · simp [hc, Call.after, ih]
      · simp [hc]
    | value deploymentProcess =>
      cases deploymentProcess with
      | none => simp [Call.after, ih]
      | some process =>
        have ih' : (scanProjects R regex client errorHandler (pre.append (p :: rest))).2 =
            (scanProjects R regex client errorHandler (pre.append rest)).2 := ih
        simp only [ih']

end OctopusProjectContainerImageRegex

/-- C12: a project whose deployment-process id is empty, or whose deployment process is not
found (an API error of status 404), has zero steps in the too-many-steps check and no
deployment process in the container-image check, without a fetch when the id is empty. In
both checks `Execute` then returns what it returns for the list of projects without that
project: the project adds no line and no error, and the projects after it are analysed. -/
theorem missing_process_counts_as_zero_steps (R : RegexpPackage) (client : Client)
    (errorHandler : OctopusClientErrorHandler) (config : Option OctolintConfig)
    (concurrency : Int) (pre rest : List Project) (p : Project)
    (hmissing : p.DeploymentProcessID = "" ∨
      ∃ msg, client.DeploymentProcesses_GetByID p.DeploymentProcessID =
        .error (.apiError 404 msg)) :
    (∃ accesses,
        OctopusProjectTooManyStepsCheck.stepsInDeploymentProcess client p.DeploymentProcessID =
          (accesses, .value 0) ∧
        (p.DeploymentProcessID = "" → accesses = [])) ∧
      (∃ accesses,
        OctopusProjectContainerImageRegex.stepsInDeploymentProcess client
            p.DeploymentProcessID = (accesses, .value none) ∧
        (p.DeploymentProcessID = "" → accesses = [])) ∧
      (client.Projects_GetAll = .ok (pre ++ p :: rest) →
        (OctopusProjectTooManyStepsCheck.Execute
            { client := some client, errorHandler := errorHandler, config := config }).returned =
          (OctopusProjectTooManyStepsCheck.Execute
            { client := some { client with Projects_GetAll := .ok (pre ++ rest) },
              errorHandler := errorHandler, config := config }).returned) ∧
      (∀ c : OctolintConfig, config = some c →
        client.GetProjectsWithFilter client.SpaceID c.ExcludeProjectsExcept c.ExcludeProjects
          c.MaxInvalidContainerImageProjects = .ok (pre ++ p :: rest) →
        (OctopusProjectContainerImageRegex.Execute R
            { client := some client, errorHandler := errorHandler, config := config }
            concurrency).returned =
          (OctopusProjectContainerImageRegex.Execute R
            { client := some { client with
                GetProjectsWithFilter := fun _ _ _ _ => .ok (pre ++ rest) },
              errorHandler := errorHandler, config := config } concurrency).returned) := by
  refine ⟨OctopusProjectTooManyStepsCheck.stepCount_missing client p hmissing,
    OctopusProjectContainerImageRegex.imageProcess_missing client p hmissing,
    ?_, ?_⟩
  · intro hprojects
    cases config with
    | none => rfl
    | some c =>
      have hscan := OctopusProjectTooManyStepsCheck.stepScan_missing client errorHandler
        p rest hmissing pre
      have hcongr := OctopusProjectTooManyStepsCheck.stepScan_congr
        { client with Projects_GetAll := .ok (pre ++ rest) } client rfl errorHandler (pre ++ rest)
      simp only [OctopusProjectTooManyStepsCheck.Execute, hprojects, hcongr]
      rcases h1 : OctopusProjectTooManyStepsCheck.scanProjects client errorHandler
        (pre ++ p :: rest) with ⟨a1, c1⟩
      rcases h2 : OctopusProjectTooManyStepsCheck.scanProjects client errorHandler
        (pre ++ rest) with ⟨a2, c2⟩
      rw [h1, h2] at hscan
      simp only at hscan
      subst hscan
      cases c1 <;> rfl
  · intro c hc hprojects
    subst hc
    simp only [OctopusProjectContainerImageRegex.Execute]
    by_cases hblank : (stringsTrimSpace c.ContainerImageRegex == "") = true
    · simp only [hblank, if_true]
    · simp only [hblank]
      cases hcompile : R.Compile c.ContainerImageRegex with
      | error e => rfl
      | ok regex =>
        have hscan := OctopusProjectContainerImageRegex.imageScan_missing R regex client
          errorHandler p rest hmissing pre
        have hcongr := OctopusProjectContainerImageRegex.imageScan_congr R regex
          { client with GetProjectsWithFilter := fun _ _ _ _ => .ok (pre ++ rest) } client rfl
          errorHandler (pre ++ rest)
        simp only [hprojects, hcongr]
        rcases h1 : OctopusProjectContainerImageRegex.scanProjects R regex client errorHandler
          (pre ++ p :: rest) with ⟨a1, c1⟩
        rcases h2 : OctopusProjectContainerImageRegex.scanProjects R regex client errorHandler
          (pre ++ rest) with ⟨a2, c2⟩
        rw [h1, h2] at hscan
        simp only at hscan
        subst hscan
        cases c1 <;> rfl

/-- Witness of C12: `P` has an empty deployment-process id, the deployment process of `Q` is
not found, `R` has twenty steps. The too-many-steps check fetches for `Q` and `R` only and
lists `R` alone. -/
theorem missing_process_counts_as_zero_steps_witness :
    OctopusProjectTooManyStepsCheck.Execute
        { client := some missingProcessSpace, errorHandler := strictHandler,
          config := some zeroConfig } =
      { accesses := [.ProjectsGetAll, .DeploymentProcessesGetByID "deploymentprocess-Projects-2",
          .DeploymentProcessesGetByID "deploymentprocess-Projects-3"],
        returned := .values
          (some (NewOctopusCheckResultImpl "The following projects have 20 or more steps:\nR"
            "OctoLintTooManySteps" "" .Warning .Organization)) none } ∧
      (OctopusProjectTooManyStepsCheck.Execute
          { client := some missingProcessSpace, errorHandler := strictHandler,
            config := some zeroConfig }).returned =
        (OctopusProjectTooManyStepsCheck.Execute
          { client := some { missingProcessSpace with
              Projects_GetAll := .ok ([projectP] ++ [projectWithTwentySteps]) },
            errorHandler := strictHandler, config := some zeroConfig }).returned :=
  ⟨by decide,
    (missing_process_counts_as_zero_steps literalRegexp missingProcessSpace strictHandler
      (some zeroConfig) 4 [projectP] [projectWithTwentySteps] projectWithoutProcess
      (Or.inr ⟨"Resource is not found", rfl⟩)).2.2.1 rfl⟩

/-! ### Projects whose variables cannot be fetched -/

namespace OctopusDuplicatedVariablesCheck

end OctopusDuplicatedVariablesCheck

namespace OctopusDuplicatedVariablesCheck

end OctopusDuplicatedVariablesCheck

namespace OctopusUnusedVariablesCheck

end OctopusUnusedVariablesCheck

namespace OctopusUnusedVariablesCheck

end OctopusUnusedVariablesCheck

end OctoLint
